import Mathlib

/-
Verification of the dialect-agnostic schema protocol (abc_schema.py) and its two
dialects: the dataclasses dialect (dataclasses_schema.py) and the marshmallow
dialect (marshmallow_schema.py).

The Python code is shallowly embedded: Python values become the inductive type
`Value`, Python runtime errors become the inductive type `PyErr`, fallible code
returns `Except PyErr`.  Behavior of the standard library (int(), float(),
datetime constructors, dataclasses.make_dataclass) and of the marshmallow
library (field serialize/deserialize, schema dump/load) is embedded to the
extent the repository exercises it; abstractions and universe restrictions are
noted next to the definitions concerned (string keys for dicts, no exponent
forms in numeric string literals, a representative truthy/falsy word set for
marshmallow Boolean).
-/

namespace PyS

/-- Wellknown external representation kinds, from abc_schema.WellknownRepresentation. -/
inductive Rep where
  | python
  | pickle
  | json
  | xml
  | sql
  | html
deriving DecidableEq, Repr

/-- Python runtime values, as far as the schema engine handles them.
None, bool, int, str, list, dict and object are direct; float and Decimal are
kept in decimal form (mantissa and number of fractional digits) since the code
never computes with them; date/time values are kept as their ISO string;
vMissing is the dataclasses.MISSING sentinel object (which is truthy!);
vCallable is an opaque callable that returns `ret` when invoked; vType is a
class object (as produced by type(x)); vJson is a JSON text payload modelled
as the keyed entries it encodes.  Dict keys are restricted to strings in this
model. -/
inductive Value where
  | vNone
  | vBool (b : Bool)
  | vInt (n : Int)
  | vFloat (mant : Int) (fdigits : Nat)
  | vDecimal (mant : Int) (fdigits : Nat)
  | vStr (s : String)
  | vDate (iso : String)
  | vTime (iso : String)
  | vDateTime (iso : String)
  | vTimeDelta (secs : Int)
  | vList (xs : List Value)
  | vDict (entries : List (String × Value))
  | vObj (cls : String) (dict : List (String × Value))
  | vMissing
  | vCallable (id : Nat) (ret : Value)
  | vType (clsName : String)
  | vJson (entries : List (String × Value))
deriving Repr

/-- Python truthiness (`bool(v)`); note the dataclasses.MISSING sentinel is an
ordinary object and hence truthy. -/
def Value.truthy : Value → Bool
  | .vNone => false
  | .vBool b => b
  | .vInt n => n != 0
  | .vFloat m _ => m != 0
  | .vDecimal m _ => m != 0
  | .vStr s => !s.data.isEmpty
  | .vDate _ => true
  | .vTime _ => true
  | .vDateTime _ => true
  | .vTimeDelta s => s != 0
  | .vList xs => !xs.isEmpty
  | .vDict es => !es.isEmpty
  | .vObj _ _ => true
  | .vMissing => true
  | .vCallable _ _ => true
  | .vType _ => true
  | .vJson _ => true

/-- Python type descriptors that occur as element native types in the two
dialects: the types of the marshmallow FieldType_to_PythonType table, the
typing generics produced by the container mixins, the bare builtin containers,
and typing.Type of typing.Any (the fallback of MMfieldSuper.get_python_type). -/
inductive PyType where
  | tInt
  | tFloat
  | tDecimal
  | tBool
  | tStr
  | tDate
  | tTime
  | tDateTime
  | tTimeDelta
  | tTypingMapping (k v : PyType)
  | tTypingDict (k v : PyType)
  | tTypingList (t : PyType)
  | tTypingMappingBare
  | tTypingDictBare
  | tTypingListBare
  | tRawDict
  | tRawList
  | tAny
deriving DecidableEq, Repr

/-- Runtime classes that appear as `typing.get_origin(pt) or pt` results and as
keys of the PythonType_to_FieldType table.  abcMapping is
collections.abc.Mapping (the origin of typing.Mapping, distinct from the
typing.Mapping alias key stored in the table); typeType is the builtin `type`
(the origin of typing.Type). The unparameterized typing aliases are kept as
their own members because the reversed table stores them as keys, although no
`get_origin(pt) or pt` value ever equals them. -/
inductive PyBase where
  | int
  | float
  | decimal
  | bool
  | str
  | date
  | time
  | datetime
  | timedelta
  | dict
  | list
  | abcMapping
  | typingMappingAlias
  | typingDictAlias
  | typingListAlias
  | typeType
deriving DecidableEq, Repr

/-- The expression `typing.get_origin(pt) or pt` used both by
SchemaTypeAnnotation.validate_internal and MMfieldSuper.from_python_type:
parametric typing types reveal their runtime origin class, plain types stand
for themselves. -/
def baseOf : PyType → PyBase
  | .tInt => .int
  | .tFloat => .float
  | .tDecimal => .decimal
  | .tBool => .bool
  | .tStr => .str
  | .tDate => .date
  | .tTime => .time
  | .tDateTime => .datetime
  | .tTimeDelta => .timedelta
  | .tTypingMapping _ _ => .abcMapping
  | .tTypingDict _ _ => .dict
  | .tTypingList _ => .list
  | .tTypingMappingBare => .abcMapping
  | .tTypingDictBare => .dict
  | .tTypingListBare => .list
  | .tRawDict => .dict
  | .tRawList => .list
  | .tAny => .typeType

/-- Python runtime errors raised by the engine and the libraries under it.
validationError is abc_schema.ValidationError (message plus chained original
error); mmValidationError is marshmallow.exceptions.ValidationError;
notImplementedRep is the NotImplementedError raised by
check_supported_input/check_supported_output, carrying the requested
representation and the supported set it names; cannotDetermineField is the
ValueError raised by MMfieldSuper.from_schema_element, carrying the offending
element (its name and python type, which the f-string interpolates). -/
inductive PyErr where
  | validationError (msg : String) (originalError : Option PyErr)
  | mmValidationError (msg : String)
  | notImplementedRep (requested : Rep) (supported : List Rep)
  | notImplementedCallable (clsName : String)
  | cannotDetermineField (name : String) (pt : PyType)
  | typeError (msg : String)
  | valueError (msg : String)
  | indexError
  | attributeError (msg : String)
deriving Repr

/-- Message text of an error, as `str(e)` produces it when the engine wraps an
underlying error into a ValidationError. -/
def PyErr.msg : PyErr → String
  | .validationError m _ => m
  | .mmValidationError m => m
  | .notImplementedRep _ _ => "representation not supported"
  | .notImplementedCallable c => "Callable input not supported by " ++ c
  | .cannotDetermineField n _ => "Cannot determine Marshmallow field for " ++ n
  | .typeError m => m
  | .valueError m => m
  | .indexError => "tuple index out of range"
  | .attributeError m => m

/-- Python whitespace for the surrounding-whitespace tolerance of int() and
float(). -/
def isPySpace (c : Char) : Bool := c = ' ' || c = '\t' || c = '\n' || c = '\r'

/-- Strip of surrounding whitespace from a character list. -/
def trimChars (cs : List Char) : List Char :=
  (((cs.dropWhile isPySpace).reverse).dropWhile isPySpace).reverse

/-- Numeric value of a list of decimal digit characters; none when a character
is not a digit. -/
def digitsVal : List Char → Option Nat
  | [] => some 0
  | c :: cs =>
    if c.isDigit then
      (digitsVal cs).map (fun n => (c.toNat - 48) * 10 ^ cs.length + n)
    else
      none

/-- Parse of a Python int literal string, as int(str) accepts it: surrounding
whitespace, an optional sign, then decimal digits. -/
def parsePyIntStr (s : String) : Option Int :=
  let cs := trimChars s.data
  match cs with
  | [] => none
  | c :: rest =>
    if c = '-' then
      match rest with
      | [] => none
      | _ => (digitsVal rest).map (fun n => -(n : Int))
    else if c = '+' then
      match rest with
      | [] => none
      | _ => (digitsVal rest).map (fun n => (n : Int))
    else
      (digitsVal cs).map (fun n => (n : Int))

/-- Parse of a Python float literal string into mantissa and fractional digit
count: sign, digits, optional decimal point and fraction digits.  Exponent and
inf/nan forms are outside this model. -/
def parsePyFloatStr (s : String) : Option (Int × Nat) :=
  let t := trimChars s.data
  let core : List Char → Option (Int × Nat) := fun cs =>
    match cs.splitOn '.' with
    | [intPart] =>
      match intPart with
      | [] => none
      | _ => (digitsVal intPart).map (fun n => ((n : Int), 0))
    | [intPart, fracPart] =>
      if intPart.isEmpty && fracPart.isEmpty then none
      else
        match digitsVal intPart, digitsVal fracPart with
        | some i, some f => some (((i * 10 ^ fracPart.length + f : Nat) : Int), fracPart.length)
        | _, _ => none
    | _ => none
  match t with
  | [] => none
  | c :: rest =>
    if c = '-' then (core rest).map (fun p => (-p.1, p.2))
    else if c = '+' then core rest
    else core t

/-- Truncation toward zero of mant / 10 ^ fdigits, as int(float) behaves. -/
def truncToInt (mant : Int) (fdigits : Nat) : Int :=
  if mant ≥ 0 then ((mant.toNat / 10 ^ fdigits : Nat) : Int)
  else -(((-mant).toNat / 10 ^ fdigits : Nat) : Int)

/-- Name of the runtime class of a value, as type(v) reveals it. -/
def pyClassNameOf : Value → String
  | .vNone => "NoneType"
  | .vBool _ => "bool"
  | .vInt _ => "int"
  | .vFloat _ _ => "float"
  | .vDecimal _ _ => "Decimal"
  | .vStr _ => "str"
  | .vDate _ => "date"
  | .vTime _ => "time"
  | .vDateTime _ => "datetime"
  | .vTimeDelta _ => "timedelta"
  | .vList _ => "list"
  | .vDict _ => "dict"
  | .vObj c _ => c
  | .vMissing => "_MISSING_TYPE"
  | .vCallable _ _ => "function"
  | .vType _ => "type"
  | .vJson _ => "str"

/-- Decimal rendering of an int-mantissa/fraction-digits number, used by str()
of floats and Decimals. -/
def decimalRender (mant : Int) (fdigits : Nat) : String :=
  if fdigits = 0 then toString mant ++ ".0"
  else
    let sign := if mant < 0 then "-" else ""
    let a := mant.natAbs
    let ip := a / 10 ^ fdigits
    let fp := a % 10 ^ fdigits
    let fpStr := toString fp
    let pad := String.mk (List.replicate (fdigits - fpStr.length) '0')
    sign ++ toString ip ++ "." ++ pad ++ fpStr

/-- Python str(v).  Containers and objects get a schematic repr; only the
scalar cases matter to the claims. -/
def pyStr : Value → String
  | .vNone => "None"
  | .vBool b => if b then "True" else "False"
  | .vInt n => toString n
  | .vFloat m f => decimalRender m f
  | .vDecimal m f => decimalRender m f
  | .vStr s => s
  | .vDate iso => iso
  | .vTime iso => iso
  | .vDateTime iso => iso
  | .vTimeDelta s => "timedelta of " ++ toString s ++ " seconds"
  | .vList _ => "<list repr>"
  | .vDict _ => "<dict repr>"
  | .vObj c _ => "<" ++ c ++ " object>"
  | .vMissing => "MISSING"
  | .vCallable i _ => "<function " ++ toString i ++ ">"
  | .vType c => "<class " ++ c ++ ">"
  | .vJson _ => "<json text>"

/-- Construction `basetype(value)` attempted by
SchemaTypeAnnotation.validate_internal, with Python constructor semantics per
runtime class.  date/datetime reject every single positional argument in the
value universe (their constructors need year, month and day); time accepts a
small hour integer; collections.abc.Mapping cannot be instantiated; `type`
applied to one argument returns the class of the value. -/
def pyConstructBase : PyBase → Value → Except PyErr Value
  | .int, v =>
    match v with
    | .vInt n => .ok (.vInt n)
    | .vBool b => .ok (.vInt (if b then 1 else 0))
    | .vFloat m f => .ok (.vInt (truncToInt m f))
    | .vDecimal m f => .ok (.vInt (truncToInt m f))
    | .vStr s =>
      match parsePyIntStr s with
      | some n => .ok (.vInt n)
      | none => .error (.valueError ("invalid literal for int with base 10: " ++ s))
    | _ => .error (.typeError ("int argument must be a string or a number, not " ++ pyClassNameOf v))
  | .float, v =>
    match v with
    | .vFloat m f => .ok (.vFloat m f)
    | .vDecimal m f => .ok (.vFloat m f)
    | .vInt n => .ok (.vFloat n 0)
    | .vBool b => .ok (.vFloat (if b then 1 else 0) 0)
    | .vStr s =>
      match parsePyFloatStr s with
      | some (m, f) => .ok (.vFloat m f)
      | none => .error (.valueError ("could not convert string to float: " ++ s))
    | _ => .error (.typeError ("float argument must be a string or a number, not " ++ pyClassNameOf v))
  | .decimal, v =>
    match v with
    | .vDecimal m f => .ok (.vDecimal m f)
    | .vFloat m f => .ok (.vDecimal m f)
    | .vInt n => .ok (.vDecimal n 0)
    | .vBool b => .ok (.vDecimal (if b then 1 else 0) 0)
    | .vStr s =>
      match parsePyFloatStr s with
      | some (m, f) => .ok (.vDecimal m f)
      | none => .error (.valueError ("invalid decimal literal: " ++ s))
    | _ => .error (.typeError ("conversion from " ++ pyClassNameOf v ++ " to Decimal is not supported"))
  | .bool, v => .ok (.vBool v.truthy)
  | .str, v => .ok (.vStr (pyStr v))
  | .date, v => .error (.typeError ("date constructor needs year, month and day, got " ++ pyClassNameOf v))
  | .datetime, v => .error (.typeError ("datetime constructor needs year, month and day, got " ++ pyClassNameOf v))
  | .time, v =>
    match v with
    | .vInt n =>
      if 0 ≤ n ∧ n < 24 then .ok (.vTime (toString n ++ ":00:00"))
      else .error (.valueError "hour must be in 0..23")
    | .vBool b => .ok (.vTime (toString (if b then (1 : Int) else 0) ++ ":00:00"))
    | _ => .error (.typeError ("an integer is required, got " ++ pyClassNameOf v))
  | .timedelta, v =>
    match v with
    | .vInt n => .ok (.vTimeDelta (n * 86400))
    | .vBool b => .ok (.vTimeDelta (if b then 86400 else 0))
    | _ => .error (.typeError ("unsupported type for timedelta days component: " ++ pyClassNameOf v))
  | .dict, v =>
    match v with
    | .vDict es => .ok (.vDict es)
    | _ => .error (.typeError (pyClassNameOf v ++ " object is not convertible to dict"))
  | .list, v =>
    match v with
    | .vList xs => .ok (.vList xs)
    | .vStr s => .ok (.vList (s.toList.map (fun c => .vStr (String.mk [c]))))
    | .vDict es => .ok (.vList (es.map (fun kv => .vStr kv.1)))
    | _ => .error (.typeError (pyClassNameOf v ++ " object is not iterable"))
  | .abcMapping, _ => .error (.typeError "cannot instantiate abstract class Mapping")
  | .typingMappingAlias, _ => .error (.typeError "typing aliases cannot be instantiated")
  | .typingDictAlias, _ => .error (.typeError "typing aliases cannot be instantiated")
  | .typingListAlias, _ => .error (.typeError "typing aliases cannot be instantiated")
  | .typeType, v => .ok (.vType (pyClassNameOf v))

/-- SchemaTypeAnnotation of abc_schema.py: required flag, default (none encodes
the abc_schema.MISSING sentinel, i.e. no default supplied) and metadata.  The
overridable to_external/from_external/validate_internal callables are never
supplied by either dialect (the marshmallow dialect passes
validate_internal=None), so they are not part of the model and the default
staticmethod algorithm below always applies. -/
structure SchemaTypeAnnot where
  required : Bool := false
  default : Option Value := none
  metadata : List (String × Value) := []
deriving Repr

/-- Default element-level validation algorithm,
SchemaTypeAnnotation.validate_internal of abc_schema.py: `if not value` takes
defaulting/required handling, otherwise the value is passed to the
unparameterized base of the element python type, construction failure being
wrapped into a ValidationError chaining the original error. -/
def SchemaTypeAnnot.validate_internal (ann : SchemaTypeAnnot) (elName : String)
    (pt : PyType) (value : Value) : Except PyErr Value :=
  if !value.truthy then
    match ann.default with
    | some d => .ok d
    | none =>
      if ann.required then
        .error (.validationError ("required element " ++ elName ++ " must be supplied") none)
      else
        .ok value
  else
    match pyConstructBase (baseOf pt) value with
    | .ok v => .ok v
    | .error e => .error (.validationError e.msg (some e))

/-- Association list standing for a Python dict with string keys, in insertion
order. -/
abbrev AList := List (String × Value)

/-- Dict read, d.get(k). -/
def alGet : AList → String → Option Value
  | [], _ => none
  | (k, v) :: rest, key => if k = key then some v else alGet rest key

/-- Dict write, d[k] = v: replaces the first binding of the key, appends when
the key is new (Python dict insertion-order semantics). -/
def alSet : AList → String → Value → AList
  | [], key, v => [(key, v)]
  | (k, w) :: rest, key, v =>
    if k = key then (k, v) :: rest else (k, w) :: alSet rest key v

/-- Keys of a dict in order. -/
def alKeys (l : AList) : List String := l.map Prod.fst

/-- Python callable(v): callables and classes are callable. -/
def Value.isCallable : Value → Bool
  | .vCallable _ _ => true
  | .vType _ => true
  | _ => false

/-- Invocation of a value: vCallable returns its ret; a class produces an empty
instance (abstraction); anything else is a TypeError. -/
def callValue : Value → Except PyErr Value
  | .vCallable _ ret => .ok ret
  | .vType c => .ok (.vObj c [])
  | v => .error (.typeError (pyClassNameOf v ++ " object is not callable"))

/-- One dataclasses.Field as DCSchemaElement wraps it: name, type annotation,
default and default_factory (none encodes dataclasses.MISSING for both), and
the field metadata split into the SchemaTypeAnnotation cached under
DCSchemaElement.Ann_meta_key (metadataAnn) and the remaining entries
(metadataRest). -/
structure DCField where
  name : String
  type : PyType
  default : Option Value := none
  default_factory : Option Value := none
  metadataAnn : Option SchemaTypeAnnot := none
  metadataRest : List (String × Value) := []
deriving Repr

/-- A dataclass: its name and its fields in declaration order.  DCSchema
stores only a reference to the dataclass in __objclass__ and re-creates
everything on the fly, so the schema is identified with its dataclass. -/
structure DCClass where
  name : String
  fields : List DCField
deriving Repr

/-- DCSchemaElement.get_annotation: a SchemaTypeAnnotation already stored in
the field metadata is returned as is; otherwise one is computed, substituting
the dataclasses MISSING of default (and then of default_factory) with the
protocol MISSING, with required set exactly when no default of either kind
exists.  The write-back caching of the computed annotation into field.metadata
is not modelled: the cached value equals the recomputed one. -/
def dcGetAnnot (f : DCField) : SchemaTypeAnnot :=
  match f.metadataAnn with
  | some ann => ann
  | none =>
    let dflt : Option Value :=
      match f.default with
      | some d => some d
      | none => f.default_factory
    { required := dflt.isNone, default := dflt, metadata := f.metadataRest }

/-- DCSchemaElement.get_python_type: the dataclass field type annotation. -/
def dcGetPythonType (f : DCField) : PyType := f.type

/-- Native shape classes a schema can be bound to: a dataclass (strict
constructor) or a plain class whose init stores the keyword arguments in the
instance dict (the SchemedObject convention of the marshmallow tests). -/
inductive PyClass where
  | dcCls (c : DCClass)
  | simple (clsName : String)
deriving Repr

/-- Name of a class. -/
def PyClass.nameOf : PyClass → String
  | .dcCls c => c.name
  | .simple n => n

/-- Whether a dataclass field supplies any default (literal or factory), which
is what exempts its constructor parameter from being required. -/
def fieldHasAnyDefault (f : DCField) : Bool := f.default.isSome || f.default_factory.isSome

/-- Values of the constructor parameters of a dataclass called with keyword
arguments: a supplied argument wins, else the literal default, else the result
of calling the default factory, else a missing-argument TypeError. -/
def dcCtorFields : List DCField → AList → Except PyErr AList
  | [], _ => .ok []
  | f :: fs, kwargs =>
    match alGet kwargs f.name with
    | some v => (dcCtorFields fs kwargs).map (fun rest => (f.name, v) :: rest)
    | none =>
      match f.default with
      | some d => (dcCtorFields fs kwargs).map (fun rest => (f.name, d) :: rest)
      | none =>
        match f.default_factory with
        | some fac => do
          let d ← callValue fac
          (dcCtorFields fs kwargs).map (fun rest => (f.name, d) :: rest)
        | none =>
          .error (.typeError ("init missing required argument: " ++ f.name))

/-- Call of a dataclass constructor with keyword arguments, objclass(**d):
every keyword must be a field, required fields must be supplied, and the new
instance dict holds the fields in declaration order. -/
def dcCtor (c : DCClass) (kwargs : AList) : Except PyErr Value :=
  if kwargs.all (fun kv => (c.fields.map DCField.name).contains kv.1) then
    (dcCtorFields c.fields kwargs).map (fun entries => .vObj c.name entries)
  else
    .error (.typeError "init got an unexpected keyword argument")

/-- Construction of an instance of a bound shape from keyword arguments. -/
def pyConstructClass : PyClass → AList → Except PyErr Value
  | .simple n, d => .ok (.vObj n d)
  | .dcCls c, d => dcCtor c d

/-- AbstractSchema.check_supported_output: the destination must be in the
supported set (the error names the requested representation and the supported
set), and a writer callback is only allowed when callable IO is supported.
The check raises NotImplementedError before any conversion work. -/
def check_supported_output (supported : List Rep) (supportsCallableIo : Bool)
    (clsName : String) (destination : Rep) (writerSupplied : Bool) : Except PyErr Unit :=
  if !(supported.contains destination) then
    .error (.notImplementedRep destination supported)
  else if !supportsCallableIo && writerSupplied then
    .error (.notImplementedCallable clsName)
  else
    .ok ()

/-- AbstractSchema.check_supported_input: mirror of check_supported_output for
the source representation and callable external input. -/
def check_supported_input (supported : List Rep) (supportsCallableIo : Bool)
    (clsName : String) (source : Rep) (externalCallable : Bool) : Except PyErr Unit :=
  if !(supported.contains source) then
    .error (.notImplementedRep source supported)
  else if !supportsCallableIo && externalCallable then
    .error (.notImplementedCallable clsName)
  else
    .ok ()

/-- Supported representations of DCSchema: only the python representation
(inherited from AbstractSchema), no callable IO. -/
def DCSupportedRepresentations : List Rep := [.python]

/-- The dataclasses.MISSING identity test `newd is not dataclasses.MISSING`
of DCSchema.validate_internal. -/
def isMissingSentinel : Value → Bool
  | .vMissing => true
  | _ => false

/-- Loop of DCSchema.validate_internal: for each element, the annotation
validates d.get(name, dataclasses.MISSING), and the result is written back
into d unless it is the MISSING sentinel. -/
def dcValidateLoop : List DCField → AList → Except PyErr AList
  | [], d => .ok d
  | f :: fs, d => do
    let ann := dcGetAnnot f
    let newd ← ann.validate_internal f.name f.type ((alGet d f.name).getD .vMissing)
    dcValidateLoop fs (if isMissingSentinel newd then d else alSet d f.name newd)

/-- DCSchema.validate_internal: d is the instance dict of the object (or the
object itself when it is already a dict), each element is validated with
write-back into d, and a fresh instance is constructed from d.  The result
pairs the returned object with the final state of d, which is the caller's
object dict mutated in place. -/
def DCSchema_validate_internal (c : DCClass) (obj : Value) : Except PyErr (Value × AList) :=
  match obj with
  | .vObj _ d0 => do
    let d ← dcValidateLoop c.fields d0
    let o ← dcCtor c d
    .ok (o, d)
  | .vDict d0 => do
    let d ← dcValidateLoop c.fields d0
    let o ← dcCtor c d
    .ok (o, d)
  | v => .error (.attributeError (pyClassNameOf v ++ " object has no attribute get"))

/-- DCSchema.to_external: dataclasses only support validation, so after the
representation check this is validate_internal. -/
def DCSchema_to_external (c : DCClass) (obj : Value) (destination : Rep)
    (writerSupplied : Bool) : Except PyErr (Value × AList) := do
  check_supported_output DCSupportedRepresentations false "DCSchema" destination writerSupplied
  DCSchema_validate_internal c obj

/-- DCSchema.from_external: after the representation check this is
validate_internal of the external value. -/
def DCSchema_from_external (c : DCClass) (external : Value) (source : Rep) :
    Except PyErr (Value × AList) := do
  check_supported_input DCSupportedRepresentations false "DCSchema" source external.isCallable
  DCSchema_validate_internal c external

/-- Marshmallow field classes occurring in the FieldType_to_PythonType table,
plus custom field classes outside the table. -/
inductive MMFieldCls where
  | integer
  | float
  | decimal
  | boolean
  | email
  | str
  | datetime
  | time
  | date
  | timedelta
  | mapping
  | dict
  | list
  | custom (n : String)
deriving DecidableEq, Repr

/-- Scalar attributes of a marshmallow field: its class, bound name, required
flag, load-time missing value (none encodes the marshmallow missing sentinel),
dump-time default, allow_none (which marshmallow derives as true when missing
is None), and metadata. -/
structure MMFieldData where
  cls : MMFieldCls
  name : String := ""
  required : Bool := false
  missing : Option Value := none
  dumpDefault : Option Value := none
  allowNone : Bool := false
  metadata : List (String × Value) := []
deriving Repr

/-- A marshmallow field: its scalar data plus the key/value fields of Mapping
and Dict containers and the inner field of List containers. -/
inductive MMField where
  | mk (data : MMFieldData) (keyF : Option MMField) (valF : Option MMField)
      (innerF : Option MMField)
deriving Repr

/-- Scalar data of a field. -/
def MMField.data : MMField → MMFieldData
  | .mk d _ _ _ => d

/-- Key field of a Mapping or Dict field. -/
def MMField.keyF : MMField → Option MMField
  | .mk _ k _ _ => k

/-- Value field of a Mapping or Dict field. -/
def MMField.valF : MMField → Option MMField
  | .mk _ _ v _ => v

/-- Inner field of a List field. -/
def MMField.innerF : MMField → Option MMField
  | .mk _ _ _ i => i

/-- The FieldType_to_PythonType table of MMfieldSuper, keyed by the exact field
class.  The Mapping, Dict and List rows are present in the table but shadowed
at runtime by the container mixins MMmappingSuper and MMlistSuper, whose
get_python_type comes earlier in the MRO; their values are the unparameterized
typing aliases. -/
def fieldTypeToPythonType : MMFieldCls → Option PyType
  | .integer => some .tInt
  | .float => some .tFloat
  | .decimal => some .tDecimal
  | .boolean => some .tBool
  | .email => some .tStr
  | .str => some .tStr
  | .datetime => some .tDateTime
  | .time => some .tTime
  | .date => some .tDate
  | .timedelta => some .tTimeDelta
  | .mapping => some .tTypingMappingBare
  | .dict => some .tTypingDictBare
  | .list => some .tTypingListBare
  | .custom _ => none

/-- The PythonType_to_FieldType table: the reversal of FieldType_to_PythonType
in which the least specific field class written last wins (str maps to Str,
overwriting Email), updated with explicit rows for the builtin dict and list
classes (the origins revealed by typing.get_origin).  The typing alias keys
from the reversal are retained although no `get_origin(pt) or pt` result ever
equals them. -/
def pythonTypeToFieldType : PyBase → Option MMFieldCls
  | .int => some .integer
  | .float => some .float
  | .decimal => some .decimal
  | .bool => some .boolean
  | .str => some .str
  | .datetime => some .datetime
  | .time => some .time
  | .date => some .date
  | .timedelta => some .timedelta
  | .typingMappingAlias => some .mapping
  | .typingDictAlias => some .dict
  | .typingListAlias => some .list
  | .dict => some .dict
  | .list => some .list
  | .abcMapping => none
  | .typeType => none

/-- MMfieldSuper.get_python_type together with the container overrides:
Mapping and Dict fields build typing.Dict of their key and value field types
(typing.Type of Any when a container side is not a field), List fields build
typing.List of their inner field type, and all other classes use the
FieldType_to_PythonType table with typing.Type of Any as fallback. -/
def mmGetPythonType : MMField → PyType
  | .mk d kf vf inf =>
    match d.cls with
    | .mapping =>
      .tTypingDict (match kf with | some k => mmGetPythonType k | none => .tAny)
        (match vf with | some v => mmGetPythonType v | none => .tAny)
    | .dict =>
      .tTypingDict (match kf with | some k => mmGetPythonType k | none => .tAny)
        (match vf with | some v => mmGetPythonType v | none => .tAny)
    | .list =>
      .tTypingList (match inf with | some i => mmGetPythonType i | none => .tAny)
    | c => (fieldTypeToPythonType c).getD .tAny

/-- MMfieldSuper.get_annotation: required is the field required flag, default
is the field missing value with the marshmallow missing sentinel converted to
the protocol MISSING (both encoded as none), metadata is the field metadata.
The constructor is called with validate_internal=None, so the default
element-level validation algorithm applies. -/
def mmGetAnnot (f : MMField) : SchemaTypeAnnot :=
  { required := f.data.required, default := f.data.missing, metadata := f.data.metadata }

/-- Test used to derive marshmallow allow_none: missing is literally None. -/
def optIsVNone : Option Value → Bool
  | some .vNone => true
  | _ => false

/-- Field construction field_class(required=..., missing=default,
default=default, metadata=...) of MMfieldSuper.from_python_type for classes
without a _type_factory. -/
def mmMkSimpleField (cls : MMFieldCls) (required : Bool) (dflt : Option Value)
    (metadata : List (String × Value)) : MMField :=
  .mk { cls := cls, name := "", required := required, missing := dflt,
        dumpDefault := dflt, allowNone := optIsVNone dflt, metadata := metadata }
    none none none

/-- MMfieldSuper.from_python_type: the unparameterized base of the python type
is looked up in PythonType_to_FieldType (no mapping yields None, not an
error); the protocol MISSING default converts to the marshmallow missing
sentinel (both encoded as none); container field classes build their key,
value or inner fields through their _type_factory from the typing args (the
recursive calls pass only the python type, leaving required True, default
missing and metadata None), raising IndexError when the type has no args;
plain classes are constructed directly. -/
def from_python_type (pt : PyType) (required : Bool) (dflt : Option Value)
    (metadata : List (String × Value)) : Except PyErr (Option MMField) :=
  match pythonTypeToFieldType (baseOf pt) with
  | none => .ok none
  | some fcls =>
    let dat : MMFieldCls → MMFieldData := fun cl =>
      { cls := cl, name := "", required := required, missing := dflt,
        dumpDefault := dflt, allowNone := optIsVNone dflt, metadata := metadata }
    match fcls with
    | .mapping =>
      match pt with
      | .tTypingMapping kt vt => do
        let kc ← from_python_type kt true none []
        let vc ← from_python_type vt true none []
        .ok (some (.mk (dat .mapping) kc vc none))
      | .tTypingDict kt vt => do
        let kc ← from_python_type kt true none []
        let vc ← from_python_type vt true none []
        .ok (some (.mk (dat .mapping) kc vc none))
      | _ => .error .indexError
    | .dict =>
      match pt with
      | .tTypingMapping kt vt => do
        let kc ← from_python_type kt true none []
        let vc ← from_python_type vt true none []
        .ok (some (.mk (dat .dict) kc vc none))
      | .tTypingDict kt vt => do
        let kc ← from_python_type kt true none []
        let vc ← from_python_type vt true none []
        .ok (some (.mk (dat .dict) kc vc none))
      | _ => .error .indexError
    | .list =>
      match pt with
      | .tTypingList it => do
        let ic ← from_python_type it true none []
        .ok (some (.mk (dat .list) none none ic))
      | _ => .error .indexError
    | c => .ok (some (mmMkSimpleField c required dflt metadata))

/-- Strings the marshmallow Boolean field treats as true on load (a
representative subset of its truthy set). -/
def mmTruthyStrs : List String :=
  ["t", "T", "true", "True", "TRUE", "1", "on", "On", "ON", "y", "Y", "yes", "Yes", "YES"]

/-- Strings the marshmallow Boolean field treats as false on load (a
representative subset of its falsy set). -/
def mmFalsyStrs : List String :=
  ["f", "F", "false", "False", "FALSE", "0", "off", "Off", "OFF", "n", "N", "no", "No", "NO"]

/-- Membership of a value in the marshmallow Boolean truthy set. -/
def mmInTruthy : Value → Bool
  | .vBool b => b
  | .vInt n => n == 1
  | .vStr s => mmTruthyStrs.contains s
  | _ => false

/-- Membership of a value in the marshmallow Boolean falsy set. -/
def mmInFalsy : Value → Bool
  | .vBool b => !b
  | .vInt n => n == 0
  | .vStr s => mmFalsyStrs.contains s
  | _ => false

/-- Shape check of an ISO date character list, yyyy-mm-dd (digit ranges are
not modelled). -/
def isIsoDateChars : List Char → Bool
  | [a, b, c, d, '-', e, f, '-', g, h] =>
    a.isDigit && b.isDigit && c.isDigit && d.isDigit && e.isDigit && f.isDigit
      && g.isDigit && h.isDigit
  | _ => false

/-- Shape check of an ISO date string. -/
def isIsoDate (s : String) : Bool := isIsoDateChars s.data

/-- Shape check of an ISO time character list, hh:mm:ss. -/
def isIsoTimeChars : List Char → Bool
  | [a, b, ':', c, d, ':', e, f] =>
    a.isDigit && b.isDigit && c.isDigit && d.isDigit && e.isDigit && f.isDigit
  | _ => false

/-- Shape check of an ISO time string. -/
def isIsoTime (s : String) : Bool := isIsoTimeChars s.data

/-- Shape check of an ISO datetime string: a date, then T, then a time. -/
def isIsoDateTime (s : String) : Bool :=
  match s.data.splitOn 'T' with
  | [d, t] => isIsoDateChars d && isIsoTimeChars t
  | _ => false

/-- Marshmallow deserialization (load direction) of one present value by one
field, Field._deserialize of the concrete field classes: None passes only
under allow_none; numbers convert through the python constructor; Boolean
consults its truthy/falsy sets; String requires a str; Email additionally
requires an at sign (its validator is abstracted to that); date and time
fields parse ISO strings; TimeDelta converts through int and counts seconds;
Mapping and Dict deserialize keys and values through their key/value fields
(untyped sides pass through, keys must stay strings in this model); List
deserializes each item through its inner field, also accepting a dict by
iterating its keys; custom fields inherit the identity Field._deserialize. -/
def mmDeserialize : MMField → Value → Except PyErr Value
  | .mk d kf vf inf, v0 =>
    match v0 with
    | .vNone =>
      if d.allowNone then .ok .vNone
      else .error (.mmValidationError "Field may not be null.")
    | v =>
      match d.cls with
      | .integer =>
        match pyConstructBase .int v with
        | .ok w => .ok w
        | .error _ => .error (.mmValidationError "Not a valid integer.")
      | .float =>
        match pyConstructBase .float v with
        | .ok w => .ok w
        | .error _ => .error (.mmValidationError "Not a valid number.")
      | .decimal =>
        match pyConstructBase .decimal v with
        | .ok w => .ok w
        | .error _ => .error (.mmValidationError "Not a valid number.")
      | .boolean =>
        if mmInTruthy v then .ok (.vBool true)
        else if mmInFalsy v then .ok (.vBool false)
        else .error (.mmValidationError "Not a valid boolean.")
      | .str =>
        match v with
        | .vStr s => .ok (.vStr s)
        | _ => .error (.mmValidationError "Not a valid string.")
      | .email =>
        match v with
        | .vStr s =>
          if s.data.contains '@' then .ok (.vStr s)
          else .error (.mmValidationError "Not a valid email address.")
        | _ => .error (.mmValidationError "Not a valid string.")
      | .date =>
        match v with
        | .vStr s => if isIsoDate s then .ok (.vDate s) else .error (.mmValidationError "Not a valid date.")
        | _ => .error (.mmValidationError "Not a valid date.")
      | .time =>
        match v with
        | .vStr s => if isIsoTime s then .ok (.vTime s) else .error (.mmValidationError "Not a valid time.")
        | _ => .error (.mmValidationError "Not a valid time.")
      | .datetime =>
        match v with
        | .vStr s => if isIsoDateTime s then .ok (.vDateTime s) else .error (.mmValidationError "Not a valid datetime.")
        | _ => .error (.mmValidationError "Not a valid datetime.")
      | .timedelta =>
        match pyConstructBase .int v with
        | .ok (.vInt n) => .ok (.vTimeDelta n)
        | _ => .error (.mmValidationError "Not a valid period of time.")
      | .mapping =>
        match v with
        | .vDict es =>
          (es.foldr (fun kv (acc : Except PyErr (List (String × Value))) => do
            let k2 ←
              match kf with
              | none => pure kv.1
              | some kfield =>
                match mmDeserialize kfield (.vStr kv.1) with
                | .ok (.vStr k2) => pure k2
                | .ok _ => Except.error (.typeError "model restriction: dict keys must deserialize to strings")
                | .error e => Except.error e
            let v2 ←
              match vf with
              | none => pure kv.2
              | some vfield => mmDeserialize vfield kv.2
            let rest ← acc
            pure ((k2, v2) :: rest)) (.ok [])).map Value.vDict
        | _ => .error (.mmValidationError "Not a valid mapping type.")
      | .dict =>
        match v with
        | .vDict es =>
          (es.foldr (fun kv (acc : Except PyErr (List (String × Value))) => do
            let k2 ←
              match kf with
              | none => pure kv.1
              | some kfield =>
                match mmDeserialize kfield (.vStr kv.1) with
                | .ok (.vStr k2) => pure k2
                | .ok _ => Except.error (.typeError "model restriction: dict keys must deserialize to strings")
                | .error e => Except.error e
            let v2 ←
              match vf with
              | none => pure kv.2
              | some vfield => mmDeserialize vfield kv.2
            let rest ← acc
            pure ((k2, v2) :: rest)) (.ok [])).map Value.vDict
        | _ => .error (.mmValidationError "Not a valid mapping type.")
      | .list =>
        match v with
        | .vList xs =>
          (xs.foldr (fun x (acc : Except PyErr (List Value)) => do
            let y ←
              match inf with
              | none => pure x
              | some g => mmDeserialize g x
            let rest ← acc
            pure (y :: rest)) (.ok [])).map Value.vList
        | .vDict es =>
          (es.foldr (fun kv (acc : Except PyErr (List Value)) => do
            let y ←
              match inf with
              | none => pure (Value.vStr kv.1)
              | some g => mmDeserialize g (.vStr kv.1)
            let rest ← acc
            pure (y :: rest)) (.ok [])).map Value.vList
        | _ => .error (.mmValidationError "Not a valid list.")
      | .custom _ => .ok v

/-- Marshmallow serialization (dump direction) of one value by one field,
Field._serialize of the concrete field classes: None passes through;
numbers convert through the python constructor, whose TypeError or ValueError
propagates unwrapped (dump errors are not marshmallow ValidationErrors);
Boolean consults its truthy/falsy sets and falls back to python truthiness;
String renders through str; date/time values render to their ISO string,
anything else lacking isoformat raises AttributeError; TimeDelta renders its
total seconds as an int; Mapping and Dict serialize entries through their
key/value fields (keys must stay strings in this model); List serializes items
through its inner field; custom fields inherit the identity
Field._serialize. -/
def mmSerialize : MMField → Value → Except PyErr Value
  | .mk d kf vf inf, v0 =>
    match v0 with
    | .vNone => .ok .vNone
    | v =>
      match d.cls with
      | .integer => pyConstructBase .int v
      | .float => pyConstructBase .float v
      | .decimal => pyConstructBase .decimal v
      | .boolean =>
        if mmInTruthy v then .ok (.vBool true)
        else if mmInFalsy v then .ok (.vBool false)
        else .ok (.vBool v.truthy)
      | .str => .ok (.vStr (pyStr v))
      | .email => .ok (.vStr (pyStr v))
      | .date =>
        match v with
        | .vDate iso => .ok (.vStr iso)
        | _ => .error (.attributeError (pyClassNameOf v ++ " object has no attribute isoformat"))
      | .time =>
        match v with
        | .vTime iso => .ok (.vStr iso)
        | _ => .error (.attributeError (pyClassNameOf v ++ " object has no attribute isoformat"))
      | .datetime =>
        match v with
        | .vDateTime iso => .ok (.vStr iso)
        | _ => .error (.attributeError (pyClassNameOf v ++ " object has no attribute isoformat"))
      | .timedelta =>
        match v with
        | .vTimeDelta secs => .ok (.vInt secs)
        | _ => .error (.attributeError (pyClassNameOf v ++ " object has no attribute total_seconds"))
      | .mapping =>
        match v with
        | .vDict es =>
          (es.foldr (fun kv (acc : Except PyErr (List (String × Value))) => do
            let k2 ←
              match kf with
              | none => pure kv.1
              | some kfield =>
                match mmSerialize kfield (.vStr kv.1) with
                | .ok (.vStr k2) => pure k2
                | .ok _ => Except.error (.typeError "model restriction: dict keys must serialize to strings")
                | .error e => Except.error e
            let v2 ←
              match vf with
              | none => pure kv.2
              | some vfield => mmSerialize vfield kv.2
            let rest ← acc
            pure ((k2, v2) :: rest)) (.ok [])).map Value.vDict
        | _ => .error (.attributeError (pyClassNameOf v ++ " object has no attribute items"))
      | .dict =>
        match v with
        | .vDict es =>
          (es.foldr (fun kv (acc : Except PyErr (List (String × Value))) => do
            let k2 ←
              match kf with
              | none => pure kv.1
              | some kfield =>
                match mmSerialize kfield (.vStr kv.1) with
                | .ok (.vStr k2) => pure k2
                | .ok _ => Except.error (.typeError "model restriction: dict keys must serialize to strings")
                | .error e => Except.error e
            let v2 ←
              match vf with
              | none => pure kv.2
              | some vfield => mmSerialize vfield kv.2
            let rest ← acc
            pure ((k2, v2) :: rest)) (.ok [])).map Value.vDict
        | _ => .error (.attributeError (pyClassNameOf v ++ " object has no attribute items"))
      | .list =>
        match v with
        | .vList xs =>
          (xs.foldr (fun x (acc : Except PyErr (List Value)) => do
            let y ←
              match inf with
              | none => pure x
              | some g => mmSerialize g x
            let rest ← acc
            pure (y :: rest)) (.ok [])).map Value.vList
        | _ => .error (.typeError (pyClassNameOf v ++ " object is not iterable"))
      | .custom _ => .ok v

/-- Supported representations of MMSchema: python and json; callable IO is
supported. -/
def MMSupportedRepresentations : List Rep := [.python, .json]

/-- A marshmallow schema: its declared fields in declaration order carrying
their names (the dict key of declared_fields, which iteration assigns to
field.name), the optional bound class __objclass__, and the context serving as
schema metadata. -/
structure MMSchemaM where
  fields : List MMField
  objclass : Option PyClass := none
  context : List (String × Value) := []
deriving Repr

/-- Marshmallow get_value on dump: attribute of an object or key of a dict;
anything else has no such attribute and yields the missing sentinel. -/
def mmGetValue (obj : Value) (name : String) : Option Value :=
  match obj with
  | .vObj _ d => alGet d name
  | .vDict d => alGet d name
  | _ => none

/-- Marshmallow dump of the declared fields over an object: a field whose
value is missing from the object falls back to its dump default (invoked when
callable), and is skipped entirely when there is none; present or defaulted
values are serialized by the field. -/
def mmDumpFields : List MMField → Value → Except PyErr AList
  | [], _ => .ok []
  | f :: fs, obj =>
    match mmGetValue obj f.data.name with
    | some v => do
      let w ← mmSerialize f v
      ((f.data.name, w) :: ·) <$> mmDumpFields fs obj
    | none =>
      match f.data.dumpDefault with
      | none => mmDumpFields fs obj
      | some dflt => do
        let dv ← if dflt.isCallable then callValue dflt else pure dflt
        let w ← mmSerialize f dv
        ((f.data.name, w) :: ·) <$> mmDumpFields fs obj

/-- Marshmallow load of the declared fields over keyed data: a key missing
from the data is an error for a required field, resolves to the field missing
value (invoked when callable, not deserialized) when one is declared, and is
omitted from the result otherwise; present values are deserialized by the
field. -/
def mmLoadFields : List MMField → AList → Except PyErr AList
  | [], _ => .ok []
  | f :: fs, data =>
    match alGet data f.data.name with
    | some v => do
      let w ← mmDeserialize f v
      ((f.data.name, w) :: ·) <$> mmLoadFields fs data
    | none =>
      if f.data.required then
        .error (.mmValidationError ("Missing data for required field " ++ f.data.name))
      else
        match f.data.missing with
        | none => mmLoadFields fs data
        | some m => do
          let mv ← if m.isCallable then callValue m else pure m
          ((f.data.name, mv) :: ·) <$> mmLoadFields fs data

/-- The unknown-field check of marshmallow load (unknown=RAISE by default):
every key of the data must be a declared field name. -/
def mmLoadCheckUnknown (fields : List MMField) (data : AList) : Except PyErr Unit :=
  if data.all (fun kv => (fields.map (fun f => f.data.name)).contains kv.1) then
    .ok ()
  else
    .error (.mmValidationError "Unknown field.")

/-- Marshmallow Schema.load: the input must be dict-shaped, unknown keys
raise, then the fields are loaded. -/
def mmLoadValue (fields : List MMField) (v : Value) : Except PyErr AList :=
  match v with
  | .vDict d => do
    mmLoadCheckUnknown fields d
    mmLoadFields fields d
  | _ => .error (.mmValidationError "Invalid input type.")

/-- Marshmallow Schema.loads: the input must be a JSON text payload (modelled
as the entries it encodes), then load. -/
def mmLoadsValue (fields : List MMField) (v : Value) : Except PyErr AList :=
  match v with
  | .vJson d => do
    mmLoadCheckUnknown fields d
    mmLoadFields fields d
  | _ => .error (.mmValidationError "Invalid input type.")

/-- Wrapping of a caught marshmallow ValidationError into
abc_schema.ValidationError(str(verror), original_error=verror), as the
`except mm.exceptions.ValidationError` clauses of MMSchema do; every other
error propagates unchanged. -/
def translateMMErr : PyErr → PyErr
  | .mmValidationError m => .validationError m (some (.mmValidationError m))
  | e => e

/-- Error translation over a computation, modelling a
try/except-mm.ValidationError block. -/
def exceptMM {α : Type} (x : Except PyErr α) : Except PyErr α :=
  match x with
  | .ok a => .ok a
  | .error e => .error (translateMMErr e)

/-- MMSchema.object_factory: with a bound __objclass__ the dict is passed to
its constructor as named arguments, otherwise the dict is returned
unchanged. -/
def object_factory (objclass : Option PyClass) (d : AList) : Except PyErr Value :=
  match objclass with
  | some c => pyConstructClass c d
  | none => .ok (.vDict d)

/-- MMSchema.to_external: the representation and writer preconditions are
checked first, the object is dumped (dumps for json, dump for python) with
marshmallow ValidationErrors rewrapped, then the result of the writer callback
on the payload is returned when a writer is supplied, the payload itself
otherwise.  The result value is what the Python call returns, None being
vNone. -/
def MMSchema_to_external (s : MMSchemaM) (obj : Value) (destination : Rep)
    (writer : Option (Value → Value)) : Except PyErr Value := do
  check_supported_output MMSupportedRepresentations true "MMSchema" destination writer.isSome
  let e ← exceptMM (match destination with
    | .json => (mmDumpFields s.fields obj).map Value.vJson
    | _ => (mmDumpFields s.fields obj).map Value.vDict)
  match writer with
  | some w => .ok (w e)
  | none => .ok e

/-- MMSchema.from_external: the representation and callable preconditions are
checked first; a callable external is invoked (with None) to obtain the
payload, an object external is replaced by its instance dict; the payload is
loaded (loads for json, load for python) with marshmallow ValidationErrors
rewrapped; the loaded dict goes through the object factory. -/
def MMSchema_from_external (s : MMSchemaM) (external : Value) (source : Rep) :
    Except PyErr Value := do
  check_supported_input MMSupportedRepresentations true "MMSchema" source external.isCallable
  let ext ←
    if external.isCallable then callValue external
    else
      match external with
      | .vObj _ d => pure (Value.vDict d)
      | x => pure x
  let d ← exceptMM (match source with
    | .json => mmLoadsValue s.fields ext
    | _ => mmLoadValue s.fields ext)
  object_factory s.objclass d

/-- MMSchema.validate_internal: a dump followed by a load (forcing all field
coercions), marshmallow ValidationErrors rewrapped, then the object factory
reconstructs the object. -/
def MMSchema_validate_internal (s : MMSchemaM) (obj : Value) : Except PyErr Value := do
  let d ← exceptMM (do
    let dumped ← mmDumpFields s.fields obj
    mmLoadValue s.fields (.vDict dumped))
  object_factory s.objclass d

/-- A schema of either dialect, as the translation engines receive it through
the protocol: from_schema only uses iteration, get_name, get_metadata and
__objclass__. -/
inductive SchemaM where
  | dc (c : DCClass)
  | mm (s : MMSchemaM)
deriving Repr

/-- A schema element of either dialect, as iteration yields it. -/
inductive ElementM where
  | dcEl (f : DCField)
  | mmEl (f : MMField)
deriving Repr

/-- Iteration over a schema: the dataclasses dialect derives its elements from
the dataclass fields on the fly, the marshmallow dialect yields its declared
fields with their names set. -/
def SchemaM.elements : SchemaM → List ElementM
  | .dc c => c.fields.map ElementM.dcEl
  | .mm s => s.fields.map ElementM.mmEl

/-- The __objclass__ of a schema (getattr with None fallback for the
marshmallow dialect; the dataclasses schema is identified with its class). -/
def SchemaM.objclassOf : SchemaM → Option PyClass
  | .dc c => some (.dcCls c)
  | .mm s => s.objclass

/-- get_name of a schema: the dataclass name, or the marshmallow __objclass__
name if one is bound. -/
def SchemaM.get_name : SchemaM → Option String
  | .dc c => some c.name
  | .mm s => s.objclass.map PyClass.nameOf

/-- get_metadata of a schema: the dataclasses dialect returns an empty dict,
the marshmallow dialect returns its context. -/
def SchemaM.get_metadata : SchemaM → List (String × Value)
  | .dc _ => []
  | .mm s => s.context

/-- get_name of an element. -/
def ElementM.get_name : ElementM → String
  | .dcEl f => f.name
  | .mmEl f => f.data.name

/-- get_python_type of an element. -/
def ElementM.get_python_type : ElementM → PyType
  | .dcEl f => dcGetPythonType f
  | .mmEl f => mmGetPythonType f

/-- get_annotation of an element (the protocol annotation of either
dialect). -/
def ElementM.getAnnotOf : ElementM → SchemaTypeAnnot
  | .dcEl f => dcGetAnnot f
  | .mmEl f => mmGetAnnot f

/-- get_metadata of an element: the dataclasses dialect returns the field
metadata (its plain entries in this model), the marshmallow dialect the field
metadata dict. -/
def ElementM.get_metadata : ElementM → List (String × Value)
  | .dcEl f => f.metadataRest
  | .mmEl f => f.data.metadata

/-- MMfieldSuper.from_schema_element: a field is built from the element
annotation and python type through from_python_type; a falsy result (None)
raises the ValueError naming the element. -/
def mm_from_schema_element (e : ElementM) : Except PyErr MMField := do
  let ann := e.getAnnotOf
  let pt := e.get_python_type
  match ← from_python_type pt ann.required ann.default ann.metadata with
  | some f => .ok f
  | none => .error (.cannotDetermineField e.get_name pt)

/-- Renaming of a field to the declared_fields key it is stored under (and
which iteration assigns to field.name). -/
def mmSetFieldName (f : MMField) (n : String) : MMField :=
  match f with
  | .mk d kf vf inf => .mk { d with name := n } kf vf inf

/-- Field synthesis loop of MMSchema.from_schema: each element becomes a
declared field keyed (and named) by the element name; the first failing
element aborts the whole dict comprehension. -/
def mmFieldsFromElements : List ElementM → Except PyErr (List MMField)
  | [] => .ok []
  | e :: es => do
    let f ← mm_from_schema_element e
    ((mmSetFieldName f e.get_name) :: ·) <$> mmFieldsFromElements es

/-- MMSchema.from_schema: a fresh schema with the source metadata as context
and the source __objclass__, whose declared fields are synthesized one per
source element; field binding (_init_fields) adds no observable behavior
beyond the naming already modelled. -/
def MMSchema_from_schema (src : SchemaM) : Except PyErr MMSchemaM := do
  let fs ← mmFieldsFromElements src.elements
  .ok { fields := fs, objclass := src.objclassOf, context := src.get_metadata }

/-- DCSchemaElement.from_schema_element: the foreign annotation is read, the
protocol MISSING default becomes the dataclasses MISSING, a callable default
goes into default_factory instead, the annotation is cached into the field
metadata, and a dataclasses field with the element name and python type is
built. -/
def dc_from_schema_element (e : ElementM) : DCField :=
  let ann := e.getAnnotOf
  let dfltFact : Option Value × Option Value :=
    match ann.default with
    | none => (none, none)
    | some v => if v.isCallable then (none, some v) else (some v, none)
  { name := e.get_name, type := e.get_python_type,
    default := dfltFact.1, default_factory := dfltFact.2,
    metadataAnn := some ann, metadataRest := e.get_metadata }

/-- Sort key of DCSchema.from_schema: `t[2].default is not dataclasses.MISSING`
(a literal default; a default_factory does not count). -/
def dcHasLiteralDefault (f : DCField) : Bool := f.default.isSome

/-- Python sorted with a Bool key is a stable sort: all false-key items in
their original order, then all true-key items in their original order. -/
def pySortedByKey (key : DCField → Bool) (fs : List DCField) : List DCField :=
  fs.filter (fun f => !key f) ++ fs.filter key

/-- The field-order rule of dataclasses (checked by make_dataclass when
building the init): once a field with a default (literal or factory) has been
seen, every later field must also have one. -/
def dcOrderOkFrom : Bool → List DCField → Bool
  | _, [] => true
  | seenDefault, f :: fs =>
    if fieldHasAnyDefault f then dcOrderOkFrom true fs
    else if seenDefault then false
    else dcOrderOkFrom false fs

/-- dataclasses.make_dataclass: builds the class from the ordered field list,
raising TypeError when a field without a default follows a field with one. -/
def make_dataclass (name : String) (fs : List DCField) : Except PyErr DCClass :=
  if dcOrderOkFrom false fs then
    .ok { name := name, fields := fs }
  else
    .error (.typeError "non-default argument follows default argument")

/-- DCSchema.from_schema: every source element becomes a dataclasses field,
the collected fields are stable-sorted by presence of a literal default
(fields with defaults after those without, because the dataclass constructor
wants keyword arguments for defaults), and the dataclass is materialized under
the source name (a synthesized name when the source has none; the id-based
fresh name is abstracted to a fixed token). -/
def DCSchema_from_schema (src : SchemaM) : Except PyErr DCClass :=
  let fs := src.elements.map dc_from_schema_element
  let sorted := pySortedByKey dcHasLiteralDefault fs
  let name :=
    match src.get_name with
    | some n => if n.isEmpty then "dc_synthesized" else n
    | none => "dc_synthesized"
  make_dataclass name sorted

/-- Success test on a computation. -/
def exOk {α : Type} : Except PyErr α → Bool
  | .ok _ => true
  | .error _ => false

/-- Value of a successful computation, with a fallback for the error case. -/
def exGetD {α : Type} : Except PyErr α → α → α
  | .ok a, _ => a
  | .error _, d => d

/-- Element-wise step of DCSchema.validate_internal: the annotation validation
of the stored value succeeds and its result is not the MISSING sentinel (so it
is written back). -/
def dcFieldStepOk (f : DCField) (d0 : AList) : Bool :=
  match SchemaTypeAnnot.validate_internal (dcGetAnnot f) f.name f.type
      ((alGet d0 f.name).getD .vMissing) with
  | .ok r => !isMissingSentinel r
  | .error _ => false

/-- The validated value an element contributes, given dcFieldStepOk. -/
def dcFieldStepVal (f : DCField) (d0 : AList) : Value :=
  exGetD (SchemaTypeAnnot.validate_internal (dcGetAnnot f) f.name f.type
    ((alGet d0 f.name).getD .vMissing)) .vMissing

/-- Per-element success of the cross-dialect pipeline from the dataclasses
dialect into the marshmallow dialect: the stored value is truthy (so
validation coerces it rather than defaulting), the base-type construction
succeeds, and the synthesized marshmallow field deserializes the coerced
value. -/
def dcmmFieldRoundOk (f : DCField) (d0 : AList) : Bool :=
  match alGet d0 f.name with
  | none => false
  | some v =>
    v.truthy &&
    (match mm_from_schema_element (.dcEl f) with
     | .error _ => false
     | .ok mf =>
       match pyConstructBase (baseOf f.type) v with
       | .error _ => false
       | .ok w => exOk (mmDeserialize (mmSetFieldName mf f.name) w))

/-- Per-element success of the cross-dialect pipeline from the marshmallow
dialect into the dataclasses dialect: the attribute is present, the field
serializes it, the serialized value is truthy, and the bare native type
constructor of the element python type accepts it. -/
def mmdcFieldRoundOk (mf : MMField) (d0 : AList) : Bool :=
  match alGet d0 mf.data.name with
  | none => false
  | some v =>
    match mmSerialize mf v with
    | .error _ => false
    | .ok w => w.truthy && exOk (pyConstructBase (baseOf (mmGetPythonType mf)) w)

/-- Modelled from the spec: the has_default key of the translation field
ordering rule.  Spec section 4.4 orders the synthesized fields by has_default
ascending because "all fields with defaults must follow all fields without
defaults" is the dataclass constructor constraint, and its edge case treats an
invokable default as a default to be preserved as a deferred-evaluation
default; hence a field with a default factory has a default. -/
def specHasDefault (f : DCField) : Bool := f.default.isSome || f.default_factory.isSome

/-- Whether a Bool key is ascending along a list (all false-key items before
all true-key items). -/
def keyAscending (key : DCField → Bool) : List DCField → Bool
  | [] => true
  | f :: fs => if key f then fs.all key else keyAscending key fs

/-- Fixture for the ordering claim: a source schema with elements
[a required, b with a default factory, c required], as a dataclasses schema
whose b field carries default_factory=list. -/
def srcFactory : DCClass :=
  { name := "Src",
    fields := [
      { name := "a", type := .tInt },
      { name := "b", type := .tRawList, default_factory := some (.vCallable 0 (.vList [])) },
      { name := "c", type := .tInt } ] }

/-- Fixture: the InventoryItem dataclass of the repository test suite. -/
def invItem : DCClass :=
  { name := "InventoryItem",
    fields := [
      { name := "name", type := .tStr },
      { name := "unit_price", type := .tFloat },
      { name := "quantity_on_hand", type := .tInt, default := some (.vInt 0) } ] }

/-- Fixture: an InventoryItem instance with a coercible string unit price, as
in the cross-schema tests. -/
def inv1dict : AList :=
  [("name", .vStr "name"), ("unit_price", .vStr "2.2"), ("quantity_on_hand", .vInt 7)]

/-- Fixture: a marshmallow schema with one required Date field bound to a
plain class, for the date round-trip counterexample. -/
def schemaDob : MMSchemaM :=
  { fields := [.mk { cls := .date, name := "dob", required := true } none none none],
    objclass := some (.simple "P") }

/-- Fixture: an instance of the schemaDob class holding an actual date. -/
def oDob : Value := .vObj "P" [("dob", .vDate "1999-01-01")]

/-- Fixture: a marshmallow schema of one required Str field with no bound
class. -/
def schemaStrX : MMSchemaM :=
  { fields := [.mk { cls := .str, name := "x", required := true } none none none],
    objclass := none }

/-- Fixture: a dataclasses field whose metadata carries a pre-stored
SchemaTypeAnnotation with required set and a default present, which
DCSchemaElement.get_annotation returns verbatim. -/
def poisonedField : DCField :=
  { name := "x", type := .tInt,
    metadataAnn := some { required := true, default := some (.vInt 5) } }

/-- Whether the native type of a dataclasses element has no mapping in the
PythonType_to_FieldType table of the marshmallow dialect. -/
def dcUnmapped (f : DCField) : Bool := (pythonTypeToFieldType (baseOf f.type)).isNone

/-- Fixture: a source schema one of whose elements (a typing.Mapping, whose
origin collections.abc.Mapping is not a table key) has no marshmallow
counterpart. -/
def srcUnmapped : DCClass :=
  { name := "S6",
    fields := [
      { name := "x", type := .tInt },
      { name := "y", type := .tTypingMapping .tStr .tInt } ] }

/-- Whether the native type of a schema element of either dialect has no
mapping in the PythonType_to_FieldType table of the marshmallow dialect. -/
def elUnmapped (e : ElementM) : Bool :=
  (pythonTypeToFieldType (baseOf e.get_python_type)).isNone

/-- Fixture: a source schema whose first element has the bare builtin list
type — mapped in the type table, but its List type factory raises IndexError
on typing.get_args(list)[0] — and whose second element has an unmapped
type. -/
def srcRawSibling : DCClass :=
  { name := "S6b",
    fields := [
      { name := "b", type := .tRawList },
      { name := "y", type := .tTypingMapping .tStr .tInt } ] }

/-- Fixture: a marshmallow source schema whose first field translates and
whose second field has a custom field class outside the type table. -/
def srcCustomMM : MMSchemaM :=
  { fields := [
      .mk { cls := .str, name := "a", required := true } none none none,
      .mk { cls := .custom "Url", name := "u" } none none none],
    objclass := none }

/-- Fallback marshmallow field used only as the default argument of exGetD
when reading the result of a successful field synthesis. -/
def fallbackMMField : MMField := .mk { cls := .custom "fallback" } none none none

/-- The field MMSchema.from_schema synthesizes for one dataclasses element:
the from_schema_element result stored (and hence named) under the element
name. -/
def dcmmSynth (f : DCField) : MMField :=
  mmSetFieldName (exGetD (mm_from_schema_element (.dcEl f)) fallbackMMField) f.name

/-- The dataclasses field DCSchema.from_schema synthesizes for one marshmallow
element (before sorting). -/
def mmdcSynth (mf : MMField) : DCField :=
  dc_from_schema_element (.mmEl mf)

/-- Fixture: a marshmallow schema with one required Str field bound to a plain
class, for the reverse-direction round-trip witness. -/
def schemaQ : MMSchemaM :=
  { fields := [.mk { cls := .str, name := "x", required := true } none none none],
    objclass := some (.simple "Q") }

/-- Fixture: the instance dict of a schemaQ object. -/
def oQdict : AList := [("x", .vStr "hi")]

/-- Fixture: the marshmallow schema that MMSchema.from_schema builds from the
InventoryItem dataclasses schema. -/
def mmInvSchema : MMSchemaM :=
  { fields := [
      .mk { cls := .str, name := "name", required := true } none none none,
      .mk { cls := .float, name := "unit_price", required := true } none none none,
      .mk { cls := .integer, name := "quantity_on_hand", required := false,
            missing := some (.vInt 0), dumpDefault := some (.vInt 0) } none none none],
    objclass := some (.dcCls invItem), context := [] }

/-- Fixture: the dataclass that DCSchema.from_schema builds from schemaQ. -/
def dcQClass : DCClass :=
  { name := "Q",
    fields := [
      { name := "x", type := .tStr,
        metadataAnn := some { required := true } } ] }

/-- Fixture: the dataclass that DCSchema.from_schema builds from the
schemaDob marshmallow schema. -/
def dcDobClass : DCClass :=
  { name := "P",
    fields := [
      { name := "dob", type := .tDate,
        metadataAnn := some { required := true } } ] }

/-- Dict read after a write at the written key. -/
theorem alGet_alSet_self (d : AList) (k : String) (v : Value) :
    alGet (alSet d k v) k = some v := by
  induction d with
  | nil => simp [alSet, alGet]
  | cons kv rest ih =>
    obtain ⟨k1, v1⟩ := kv
    by_cases h : k1 = k
    · simp [alSet, alGet, h]
    · simp [alSet, alGet, h, ih]

/-- Dict read after a write at a different key. -/
theorem alGet_alSet_ne (d : AList) {k k2 : String} (v : Value) (h : k ≠ k2) :
    alGet (alSet d k v) k2 = alGet d k2 := by
  induction d with
  | nil => simp [alSet, alGet, h]
  | cons kv rest ih =>
    obtain ⟨k1, v1⟩ := kv
    by_cases h2 : k1 = k
    · cases h2
      simp [alSet, alGet, h]
    · simp [alSet, alGet, h2, ih]

/-- Writing at an existing key preserves the key list. -/
theorem alKeys_alSet_mem (d : AList) (k : String) (v : Value) (h : k ∈ alKeys d) :
    alKeys (alSet d k v) = alKeys d := by
  induction d with
  | nil => simp [alKeys] at h
  | cons kv rest ih =>
    obtain ⟨k1, v1⟩ := kv
    by_cases h2 : k1 = k
    · simp [alSet, h2, alKeys]
    · have hsplit : k = k1 ∨ k ∈ alKeys rest := by simpa [alKeys] using h
      have hmem : k ∈ alKeys rest := by
        rcases hsplit with hh | hh
        · exact absurd hh.symm h2
        · exact hh
      have hrec := ih hmem
      simp only [alKeys] at hrec
      simp [alSet, h2, alKeys, hrec]

/-- A key of the dict reads to a value. -/
theorem alGet_isSome_of_mem (d : AList) (k : String) (h : k ∈ alKeys d) :
    (alGet d k).isSome = true := by
  induction d with
  | nil => simp [alKeys] at h
  | cons kv rest ih =>
    obtain ⟨k1, v1⟩ := kv
    by_cases h2 : k1 = k
    · simp [alGet, h2]
    · have hsplit : k = k1 ∨ k ∈ alKeys rest := by simpa [alKeys] using h
      have hmem : k ∈ alKeys rest := by
        rcases hsplit with hh | hh
        · exact absurd hh.symm h2
        · exact hh
      simp [alGet, h2, ih hmem]

/-- A read value witnesses key membership. -/
theorem mem_alKeys_of_alGet (d : AList) (k : String) (v : Value)
    (h : alGet d k = some v) : k ∈ alKeys d := by
  induction d with
  | nil => simp [alGet] at h
  | cons kv rest ih =>
    obtain ⟨k1, v1⟩ := kv
    by_cases h2 : k1 = k
    · simp [alKeys, h2]
    · simp only [alGet] at h
      rw [if_neg h2] at h
      have hmem := ih h
      have : k = k1 ∨ k ∈ alKeys rest := Or.inr hmem
      simpa [alKeys] using this

/-- The element-wise validation step only reads the stored value of its own
name. -/
theorem dcFieldStep_congr (f : DCField) {d d2 : AList}
    (h : alGet d2 f.name = alGet d f.name) :
    dcFieldStepOk f d2 = dcFieldStepOk f d ∧ dcFieldStepVal f d2 = dcFieldStepVal f d := by
  constructor <;> simp [dcFieldStepOk, dcFieldStepVal, h]

/-- Behavior of the write-back loop of DCSchema.validate_internal when every
element step succeeds: the final dict keeps the keys of the input, keeps
非-element entries, and holds the validated value of every element. -/
theorem dcValidateLoop_spec (fields : List DCField) (d : AList)
    (hnd : (fields.map DCField.name).Nodup)
    (hin : ∀ f ∈ fields, f.name ∈ alKeys d)
    (hok : ∀ f ∈ fields, dcFieldStepOk f d = true) :
    ∃ d2, dcValidateLoop fields d = .ok d2 ∧
      alKeys d2 = alKeys d ∧
      (∀ n, n ∉ fields.map DCField.name → alGet d2 n = alGet d n) ∧
      (∀ f ∈ fields, alGet d2 f.name = some (dcFieldStepVal f d)) := by
  induction fields generalizing d with
  | nil =>
    exact ⟨d, rfl, rfl, fun _ _ => rfl, fun f hf => absurd hf (List.not_mem_nil f)⟩
  | cons f0 fs ih =>
    have hok0 := hok f0 (List.mem_cons_self f0 fs)
    obtain ⟨r, hr, hrs⟩ :
        ∃ r, SchemaTypeAnnot.validate_internal (dcGetAnnot f0) f0.name f0.type
          ((alGet d f0.name).getD .vMissing) = .ok r ∧ isMissingSentinel r = false := by
      unfold dcFieldStepOk at hok0
      rcases hval : SchemaTypeAnnot.validate_internal (dcGetAnnot f0) f0.name f0.type
          ((alGet d f0.name).getD .vMissing) with e | r
      · rw [hval] at hok0
        simp at hok0
      · rw [hval] at hok0
        exact ⟨r, rfl, by simpa using hok0⟩
    have hrval : dcFieldStepVal f0 d = r := by
      simp [dcFieldStepVal, hr, exGetD]
    obtain ⟨hnotin, hnd2⟩ :
        (∀ x ∈ fs, ¬ x.name = f0.name) ∧ (fs.map DCField.name).Nodup := by
      simpa using hnd
    have hname0 : f0.name ∉ fs.map DCField.name := by
      simpa using fun x hx (he : x.name = f0.name) => hnotin x hx he
    set d1 := alSet d f0.name r with hd1
    have hpres : ∀ g ∈ fs, alGet d1 g.name = alGet d g.name := by
      intro g hg
      exact alGet_alSet_ne d r (fun he => hnotin g hg he.symm)
    have hin2 : ∀ g ∈ fs, g.name ∈ alKeys d1 := by
      intro g hg
      have := hin g (List.mem_cons_of_mem f0 hg)
      rw [hd1, alKeys_alSet_mem d f0.name r (hin f0 (List.mem_cons_self f0 fs))]
      exact this
    have hok2 : ∀ g ∈ fs, dcFieldStepOk g d1 = true := by
      intro g hg
      rw [(dcFieldStep_congr g (hpres g hg)).1]
      exact hok g (List.mem_cons_of_mem f0 hg)
    obtain ⟨d2, hloop, hkeys, hother, hvals⟩ := ih d1 hnd2 hin2 hok2
    refine ⟨d2, ?_, ?_, ?_, ?_⟩
    · show (SchemaTypeAnnot.validate_internal (dcGetAnnot f0) f0.name f0.type
          ((alGet d f0.name).getD .vMissing)).bind
        (fun newd => dcValidateLoop fs (if isMissingSentinel newd then d else alSet d f0.name newd))
        = .ok d2
      rw [hr]
      show dcValidateLoop fs (if isMissingSentinel r then d else alSet d f0.name r) = .ok d2
      rw [hrs]
      simpa using hloop
    · rw [hkeys, hd1, alKeys_alSet_mem d f0.name r (hin f0 (List.mem_cons_self f0 fs))]
    · intro n hn
      have hn1 : n ∉ fs.map DCField.name := fun hc => hn (by simp [hc])
      have hn0 : f0.name ≠ n := by
        intro he
        exact hn (by simp [← he])
      rw [hother n hn1, hd1, alGet_alSet_ne d r hn0]
    · intro g hg
      rcases List.mem_cons.mp hg with hg0 | hgs
      · subst hg0
        have hstep : alGet d2 g.name = alGet d1 g.name := hother g.name hname0
        rw [hstep, hd1, alGet_alSet_self, hrval]
      · rw [hvals g hgs, (dcFieldStep_congr g (hpres g hgs)).2]

/-- Values of the dataclass constructor parameters when every field is
supplied as a keyword argument. -/
theorem dcCtorFields_spec (fields : List DCField) (kwargs : AList)
    (h : ∀ f ∈ fields, (alGet kwargs f.name).isSome = true) :
    dcCtorFields fields kwargs
      = .ok (fields.map fun f => (f.name, (alGet kwargs f.name).getD .vNone)) := by
  induction fields with
  | nil => rfl
  | cons f fs ih =>
    have hf := h f (List.mem_cons_self f fs)
    rcases hv : alGet kwargs f.name with _ | v
    · rw [hv] at hf
      simp at hf
    · have hrec := ih (fun g hg => h g (List.mem_cons_of_mem f hg))
      simp [dcCtorFields, hv, hrec, Except.map]

/-- Call of a dataclass constructor with exactly the field keys supplied. -/
theorem dcCtor_spec (c : DCClass) (kwargs : AList)
    (hsub : ∀ kv ∈ kwargs, kv.1 ∈ c.fields.map DCField.name)
    (hpres : ∀ f ∈ c.fields, (alGet kwargs f.name).isSome = true) :
    dcCtor c kwargs
      = .ok (.vObj c.name (c.fields.map fun f => (f.name, (alGet kwargs f.name).getD .vNone))) := by
  have hall : kwargs.all (fun kv => (c.fields.map DCField.name).contains kv.1) = true := by
    rw [List.all_eq_true]
    intro kv hkv
    exact List.elem_eq_true_of_mem (hsub kv hkv)
  simp [dcCtor, hall, dcCtorFields_spec c.fields kwargs hpres, Except.map]
  intro x v hx
  simpa [List.mem_map] using hsub (x, v) hx

/-- C2: evaluation of the code at the failing input.  The claim says an absent
value with a declared default resolves to the default; but the absent slot
reaches SchemaTypeAnnotation.validate_internal as the dataclasses.MISSING
sentinel (DCSchema.validate_internal passes d.get(name, dataclasses.MISSING)),
which is an ordinary truthy object, so `if not value` sends it down the
coercion branch and int(MISSING) raises, wrapped as a ValidationError — the
default 5 is never substituted.  The dead guard `if newd is not
dataclasses.MISSING` in the caller shows the sentinel was expected to count as
absent. -/
theorem C2_absent_value_hits_coercion_not_default :
    SchemaTypeAnnot.validate_internal { required := false, default := some (.vInt 5) }
      "qty" .tInt .vMissing
    = .error (.validationError "int argument must be a string or a number, not _MISSING_TYPE"
        (some (.typeError "int argument must be a string or a number, not _MISSING_TYPE"))) := rfl

/-- C5 counterexample: the claim says supplying any value for a required field
satisfies the requirement, but the code tests Python truthiness, so the
supplied value 0 still raises the required-element ValidationError. -/
theorem C5_counterexample_zero_raises_required :
    SchemaTypeAnnot.validate_internal { required := true } "name" .tInt (.vInt 0)
    = .error (.validationError "required element name must be supplied" none) := rfl

/-- C5 amended: validating an empty (falsy) value for a required element with
no default raises the required-element ValidationError, and supplying any
truthy value never produces that error (falsy supplied values such as 0,
False, empty string or empty containers are treated as missing and still
raise). -/
theorem C5_required_enforcement_amended (ann : SchemaTypeAnnot) (elName : String)
    (pt : PyType) (v : Value) :
    (v.truthy = false → ann.default = none → ann.required = true →
      SchemaTypeAnnot.validate_internal ann elName pt v
        = .error (.validationError ("required element " ++ elName ++ " must be supplied") none)) ∧
    (v.truthy = true →
      SchemaTypeAnnot.validate_internal ann elName pt v
        ≠ .error (.validationError ("required element " ++ elName ++ " must be supplied") none)) := by
  constructor
  · intro hv hd hr
    simp [SchemaTypeAnnot.validate_internal, hv, hd, hr]
  · intro hv
    rcases hc : pyConstructBase (baseOf pt) v with e | w
    · simp [SchemaTypeAnnot.validate_internal, hv, hc]
    · simp [SchemaTypeAnnot.validate_internal, hv, hc]

/-- C5 witness: the amended theorem applied at a required int element with the
truthy value 7 and at the empty value None. -/
theorem C5_required_enforcement_amended_witness :
    (SchemaTypeAnnot.validate_internal { required := true } "name" .tInt (.vInt 7)
      ≠ .error (.validationError "required element name must be supplied" none)) ∧
    (SchemaTypeAnnot.validate_internal { required := true } "name" .tInt .vNone
      = .error (.validationError "required element name must be supplied" none)) :=
  ⟨(C5_required_enforcement_amended { required := true } "name" .tInt (.vInt 7)).2 rfl,
   (C5_required_enforcement_amended { required := true } "name" .tInt .vNone).1 rfl rfl rfl⟩

/-- C8 counterexample: a dataclasses element whose field metadata already
carries a SchemaTypeAnnotation (under DCSchemaElement.Ann_meta_key) gets it
back verbatim from get_annotation, so an annotation with required=True and a
non-MISSING default violates the claimed invariant. -/
theorem C8_counterexample_cached_ann :
    (dcGetAnnot poisonedField).required = true ∧
    (dcGetAnnot poisonedField).default = some (.vInt 5) := ⟨rfl, rfl⟩

/-- C8 amended: the invariant required = true implies default = MISSING holds
for every annotation the dialects compute: unconditionally for a dataclasses
element whose metadata carries no pre-stored annotation (required is defined
as the absence of a default), and for a marshmallow field granted the
marshmallow constructor rule that required fields cannot declare a missing
value.  An annotation pre-stored in dataclasses field metadata is returned
verbatim and escapes the invariant. -/
theorem C8_annot_invariant_amended :
    (∀ f : DCField, f.metadataAnn = none →
      (dcGetAnnot f).required = true → (dcGetAnnot f).default = none) ∧
    (∀ g : MMField, (g.data.required = true → g.data.missing = none) →
      (mmGetAnnot g).required = true → (mmGetAnnot g).default = none) := by
  constructor
  · intro f h hr
    rcases hd : f.default with _ | v
    · rcases hf : f.default_factory with _ | w
      · simp [dcGetAnnot, h, hd, hf]
      · simp [dcGetAnnot, h, hd, hf] at hr
    · simp [dcGetAnnot, h, hd] at hr
  · intro g h hr
    simp only [mmGetAnnot] at hr ⊢
    exact h hr

/-- C8 witness: the amended theorem applied at a required uncached dataclasses
field and at a required marshmallow Str field with no missing value. -/
theorem C8_annot_invariant_amended_witness :
    (dcGetAnnot { name := "x", type := .tInt }).default = none ∧
    (mmGetAnnot (.mk { cls := .str, name := "n", required := true } none none none)).default = none :=
  ⟨C8_annot_invariant_amended.1 { name := "x", type := .tInt } rfl rfl,
   C8_annot_invariant_amended.2 (.mk { cls := .str, name := "n", required := true } none none none)
     (fun _ => rfl) rfl⟩

/-- C9: the object factory builds an instance from the flat mapping through
the bound shape constructor with the entries as named arguments (a plain
class stores them as the instance dict), and returns the mapping unchanged
when no shape is bound. -/
theorem C9_object_factory (d : AList) (c : PyClass) (n : String) :
    object_factory none d = .ok (.vDict d) ∧
    object_factory (some (.simple n)) d = .ok (.vObj n d) ∧
    object_factory (some c) d = pyConstructClass c d := ⟨rfl, rfl, rfl⟩

/-- C3: for every schema of either dialect, every object or payload, and every
representation kind outside the schema class supported set, to_external and
from_external fail with the NotImplementedError naming the requested kind and
the supported set; the result is this error for every input object, so the
check precedes any conversion work. -/
theorem C3_representation_precondition (dest src : Rep) (c : DCClass) (s : MMSchemaM)
    (obj external : Value) (w : Option (Value → Value)) (wd : Bool) :
    (MMSupportedRepresentations.contains dest = false →
      MMSchema_to_external s obj dest w
        = .error (.notImplementedRep dest MMSupportedRepresentations)) ∧
    (MMSupportedRepresentations.contains src = false →
      MMSchema_from_external s external src
        = .error (.notImplementedRep src MMSupportedRepresentations)) ∧
    (DCSupportedRepresentations.contains dest = false →
      DCSchema_to_external c obj dest wd
        = .error (.notImplementedRep dest DCSupportedRepresentations)) ∧
    (DCSupportedRepresentations.contains src = false →
      DCSchema_from_external c external src
        = .error (.notImplementedRep src DCSupportedRepresentations)) := by
  have hnot : ∀ (r : Rep) (l : List Rep), l.contains r = false → r ∉ l := by
    intro r l hc hmem
    have htrue : l.contains r = true := List.elem_eq_true_of_mem hmem
    rw [htrue] at hc
    cases hc
  refine ⟨fun h => ?_, fun h => ?_, fun h => ?_, fun h => ?_⟩
  · simp [MMSchema_to_external, check_supported_output, h, hnot _ _ h, Except.bind, bind]
  · simp [MMSchema_from_external, check_supported_input, h, hnot _ _ h, Except.bind, bind]
  · simp [DCSchema_to_external, check_supported_output, h, hnot _ _ h, Except.bind, bind]
  · simp [DCSchema_from_external, check_supported_input, h, hnot _ _ h, Except.bind, bind]

/-- C3 witness: xml export from the marshmallow dialect and json export from
the dataclasses dialect fail with the precondition error. -/
theorem C3_representation_precondition_witness :
    MMSchema_to_external schemaStrX (.vDict []) .xml none
      = .error (.notImplementedRep .xml MMSupportedRepresentations) ∧
    DCSchema_to_external invItem (.vObj "I" []) .json false
      = .error (.notImplementedRep .json DCSupportedRepresentations) :=
  ⟨(C3_representation_precondition .xml .xml invItem schemaStrX (.vDict []) (.vDict []) none false).1 rfl,
   (C3_representation_precondition .json .json invItem schemaStrX (.vObj "I" []) (.vObj "I" []) none false).2.2.1 rfl⟩

/-- C7: evaluation of the code at the failing input.  The claim (and the
docstring of to_external) says that with a writer callback the call returns
nothing; but MMSchema.to_external ends with `return writer_callback(e)`, so
the caller receives whatever the callback returns — with an identity callback
the caller receives the full payload, exactly what is returned with no
callback, and with a constant callback its constant. -/
theorem C7_writer_result_returned :
    (MMSchema_to_external schemaStrX (.vDict [("x", .vStr "v")]) .python (some (fun p => p))
      = .ok (.vDict [("x", .vStr "v")])) ∧
    (MMSchema_to_external schemaStrX (.vDict [("x", .vStr "v")]) .python none
      = .ok (.vDict [("x", .vStr "v")])) ∧
    (MMSchema_to_external schemaStrX (.vDict [("x", .vStr "v")]) .python (some (fun _ => .vStr "done"))
      = .ok (.vStr "done")) ∧
    (Value.vDict [("x", .vStr "v")] ≠ .vNone) :=
  ⟨rfl, rfl, rfl, fun h => Value.noConfusion h⟩

/-- C4: evaluation of the code at the failing input.  Translating a source
schema [a required, b factory-default, c required] into the dataclasses
dialect keeps the order [a, b, c]: the sort key is `default is not MISSING`,
and a factory default leaves field.default as MISSING, so b sorts with the
no-default group.  The resulting order is not ascending in has_default as the
spec defines it (a deferred factory default is a default), and make_dataclass
rejects the field list because the non-default field c follows the defaulted
field b — contradicting the code comment that fields with defaults must be
ordered after those without. -/
theorem C4_factory_default_ordering :
    ((pySortedByKey dcHasLiteralDefault
        ((SchemaM.dc srcFactory).elements.map dc_from_schema_element)).map DCField.name
      = ["a", "b", "c"]) ∧
    (keyAscending specHasDefault (pySortedByKey dcHasLiteralDefault
        ((SchemaM.dc srcFactory).elements.map dc_from_schema_element)) = false) ∧
    (DCSchema_from_schema (.dc srcFactory)
      = .error (.typeError "non-default argument follows default argument")) :=
  ⟨rfl, rfl, rfl⟩

/-- An element whose native type base has no table entry makes
from_schema_element raise the cannot-determine ValueError, in either
dialect. -/
theorem mm_from_schema_element_unmapped (e : ElementM) (h : elUnmapped e = true) :
    mm_from_schema_element e = .error (.cannotDetermineField e.get_name e.get_python_type) := by
  have hnone : pythonTypeToFieldType (baseOf e.get_python_type) = none := by
    simpa [elUnmapped, Option.isNone_iff_eq_none] using h
  simp [mm_from_schema_element, from_python_type, hnone, Except.bind, bind]

/-- The field synthesis loop fails with the cannot-determine error of an
unmapped element when every element before it translates. -/
theorem mmFieldsFromElements_first_unmapped (pre rest : List ElementM) (e : ElementM)
    (hun : elUnmapped e = true)
    (hpre : pre.all (fun x => exOk (mm_from_schema_element x)) = true) :
    mmFieldsFromElements (pre ++ e :: rest)
      = .error (.cannotDetermineField e.get_name e.get_python_type) := by
  induction pre with
  | nil =>
    show (mm_from_schema_element e).bind
      (fun g => (mmFieldsFromElements rest).map (fun r => mmSetFieldName g e.get_name :: r)) = _
    rw [mm_from_schema_element_unmapped e hun]
    rfl
  | cons p ps ih =>
    have hok0 : exOk (mm_from_schema_element p) = true := by
      have := (List.all_eq_true.mp hpre) p (List.mem_cons_self p ps)
      simpa using this
    have hps : ps.all (fun x => exOk (mm_from_schema_element x)) = true := by
      rw [List.all_cons] at hpre
      exact ((Bool.and_eq_true _ _).mp hpre).2
    obtain ⟨g, hg⟩ : ∃ g, mm_from_schema_element p = .ok g := by
      rcases he : mm_from_schema_element p with err | g
      · rw [he] at hok0
        cases hok0
      · exact ⟨g, rfl⟩
    show (mm_from_schema_element p).bind
      (fun g2 => (mmFieldsFromElements (ps ++ e :: rest)).map
        (fun r => mmSetFieldName g2 p.get_name :: r)) = _
    rw [hg]
    show (mmFieldsFromElements (ps ++ e :: rest)).map
      (fun r => mmSetFieldName g p.get_name :: r) = _
    rw [ih hps]
    rfl

/-- C6 counterexample: srcRawSibling contains the unmapped element y (the
origin collections.abc.Mapping of its typing.Mapping type has no table entry),
so the claim predicts from_schema fails with the cannot-determine ValueError
naming y; but the mapped sibling b of bare builtin list type fails first —
its List type factory raises IndexError on typing.get_args(list)[0] — so
from_schema fails with IndexError and the element-naming error never
occurs. -/
theorem C6_counterexample_sibling_index_error :
    elUnmapped (.dcEl { name := "y", type := .tTypingMapping .tStr .tInt }) = true ∧
    MMSchema_from_schema (.dc srcRawSibling) = .error .indexError ∧
    MMSchema_from_schema (.dc srcRawSibling)
      ≠ .error (.cannotDetermineField "y" (.tTypingMapping .tStr .tInt)) := by
  refine ⟨rfl, rfl, ?_⟩
  intro h
  have h2 : (Except.error PyErr.indexError : Except PyErr MMSchemaM)
      = .error (.cannotDetermineField "y" (.tTypingMapping .tStr .tInt)) := h
  exact PyErr.noConfusion (Except.error.inj h2)

/-- C6 (amended): translation into the marshmallow dialect is all-or-nothing
and aborts at the first failing element — for a source schema of either
dialect containing an element whose native type has no entry in the
PythonType_to_FieldType table, from_schema fails with the cannot-determine
ValueError naming that element and its type, provided every element before it
translates; no schema value is produced.  When an earlier element fails
differently (see the counterexample) the translation still aborts, but with
that earlier error instead of the element-naming one. -/
theorem C6_unsupported_type_all_or_nothing_amended (src : SchemaM)
    (pre rest : List ElementM) (e : ElementM)
    (hsplit : src.elements = pre ++ e :: rest)
    (hun : elUnmapped e = true)
    (hpre : pre.all (fun x => exOk (mm_from_schema_element x)) = true) :
    MMSchema_from_schema src
      = .error (.cannotDetermineField e.get_name e.get_python_type) := by
  show (mmFieldsFromElements src.elements).bind _ = _
  rw [hsplit, mmFieldsFromElements_first_unmapped pre rest e hun hpre]
  rfl

/-- C6 witness: the amended theorem applied to a marshmallow source whose
custom-class field is unmapped and to a dataclasses source whose
typing.Mapping element is unmapped, each preceded by an element that
translates. -/
theorem C6_unsupported_type_all_or_nothing_amended_witness :
    (MMSchema_from_schema (.mm srcCustomMM) = .error (.cannotDetermineField "u" .tAny)) ∧
    (MMSchema_from_schema (.dc srcUnmapped)
      = .error (.cannotDetermineField "y" (.tTypingMapping .tStr .tInt))) :=
  ⟨C6_unsupported_type_all_or_nothing_amended (.mm srcCustomMM)
      [.mmEl (.mk { cls := .str, name := "a", required := true } none none none)] []
      (.mmEl (.mk { cls := .custom "Url", name := "u" } none none none)) rfl rfl rfl,
   C6_unsupported_type_all_or_nothing_amended (.dc srcUnmapped)
      [.dcEl { name := "x", type := .tInt }] []
      (.dcEl { name := "y", type := .tTypingMapping .tStr .tInt }) rfl rfl rfl⟩

/-- C10: DCSchema.validate_internal writes through the dict of the object
passed in.  For an object with a dict whose keys are the schema field names,
when every element validates, the call succeeds and the final state of the
passed object dict (the second component of the model result) holds the
validated (coerced or defaulted) value of every element — the original
argument mutates — while the returned object is a fresh instance constructed
from that mutated dict by the dataclass constructor. -/
theorem C10_validate_internal_mutates_argument (c : DCClass) (cls0 : String) (d0 : AList)
    (hnd : (c.fields.map DCField.name).Nodup)
    (hkeys : alKeys d0 = c.fields.map DCField.name)
    (hok : c.fields.all (fun f => dcFieldStepOk f d0) = true) :
    ∃ res dfin, DCSchema_validate_internal c (.vObj cls0 d0) = .ok (res, dfin) ∧
      (∀ f ∈ c.fields, alGet dfin f.name = some (dcFieldStepVal f d0)) ∧
      (∀ n, n ∉ c.fields.map DCField.name → alGet dfin n = alGet d0 n) ∧
      dcCtor c dfin = .ok res := by
  have hin : ∀ f ∈ c.fields, f.name ∈ alKeys d0 := by
    intro f hf
    rw [hkeys]
    exact List.mem_map_of_mem DCField.name hf
  obtain ⟨d2, hloop, hkeysEq, hother, hvals⟩ :=
    dcValidateLoop_spec c.fields d0 hnd hin (fun f hf => (List.all_eq_true.mp hok) f hf)
  have hsub : ∀ kv ∈ d2, kv.1 ∈ c.fields.map DCField.name := by
    intro kv hkv
    have : kv.1 ∈ alKeys d2 := List.mem_map_of_mem Prod.fst hkv
    rw [hkeysEq, hkeys] at this
    exact this
  have hpres : ∀ f ∈ c.fields, (alGet d2 f.name).isSome = true := by
    intro f hf
    rw [hvals f hf]
    rfl
  have hctor := dcCtor_spec c d2 hsub hpres
  refine ⟨_, d2, ?_, hvals, hother, hctor⟩
  show (dcValidateLoop c.fields d0).bind
    (fun d => (dcCtor c d).bind (fun o => .ok (o, d))) = _
  rw [hloop]
  show (dcCtor c d2).bind (fun o => .ok (o, d2)) = _
  rw [hctor]
  rfl

/-- C10 witness: the theorem applied to InventoryItem with a string unit
price, whose coerced float lands in the dict of the passed object. -/
theorem C10_validate_internal_mutates_argument_witness :
    ∃ res dfin, DCSchema_validate_internal invItem (.vObj "InventoryItem" inv1dict)
        = .ok (res, dfin) ∧
      (∀ f ∈ invItem.fields, alGet dfin f.name = some (dcFieldStepVal f inv1dict)) ∧
      (∀ n, n ∉ invItem.fields.map DCField.name → alGet dfin n = alGet inv1dict n) ∧
      dcCtor invItem dfin = .ok res :=
  C10_validate_internal_mutates_argument invItem "InventoryItem" inv1dict
    (by decide) rfl rfl

/-- Name of a renamed field. -/
theorem mmSetFieldName_name (f : MMField) (n : String) :
    (mmSetFieldName f n).data.name = n := by
  cases f
  rfl

/-- A successful base-type construction never produces the MISSING
sentinel. -/
theorem pyConstructBase_not_sentinel (b : PyBase) (v w : Value)
    (h : pyConstructBase b v = .ok w) : isMissingSentinel w = false := by
  cases b <;> cases v <;>
    simp only [pyConstructBase] at h <;>
    (repeat' split at h) <;>
    (try cases h) <;>
    simp [isMissingSentinel]

/-- Lookup in a dict built from a name-unique list of items. -/
theorem alGet_map_named {α : Type} (l : List α) (nm : α → String) (val : α → Value)
    (hnd : (l.map nm).Nodup) (g : α) (hg : g ∈ l) :
    alGet (l.map fun x => (nm x, val x)) (nm g) = some (val g) := by
  induction l with
  | nil => cases hg
  | cons x xs ih =>
    obtain ⟨hnotin, hnd2⟩ : (∀ y ∈ xs, ¬ nm y = nm x) ∧ (xs.map nm).Nodup := by
      simpa using hnd
    rcases List.mem_cons.mp hg with hg0 | hgs
    · subst hg0
      simp [alGet]
    · have hne : nm x ≠ nm g := fun he => hnotin g hgs he.symm
      simp only [List.map_cons, alGet]
      rw [if_neg hne]
      exact ih hnd2 hgs

/-- Within a name-unique list, names identify items. -/
theorem eq_of_name_eq_of_nodup {α : Type} (l : List α) (nm : α → String)
    (hnd : (l.map nm).Nodup) (a b : α) (ha : a ∈ l) (hb : b ∈ l)
    (he : nm a = nm b) : a = b := by
  induction l with
  | nil => cases ha
  | cons x xs ih =>
    obtain ⟨hnotin, hnd2⟩ : (∀ y ∈ xs, ¬ nm y = nm x) ∧ (xs.map nm).Nodup := by
      simpa using hnd
    rcases List.mem_cons.mp ha with ha0 | has <;> rcases List.mem_cons.mp hb with hb0 | hbs
    · rw [ha0, hb0]
    · subst ha0
      exact absurd (he ▸ rfl : nm b = nm a) (hnotin b hbs)
    · subst hb0
      exact absurd he (hnotin a has)
    · exact ih hnd2 has hbs

/-- A successful field synthesis loop translates every element and yields the
renamed synthesized fields in order. -/
theorem mmFieldsFromElements_ok_eq (es : List ElementM) (fs : List MMField)
    (h : mmFieldsFromElements es = .ok fs) :
    (∀ e ∈ es, exOk (mm_from_schema_element e) = true) ∧
    fs = es.map (fun e => mmSetFieldName (exGetD (mm_from_schema_element e) fallbackMMField) e.get_name) := by
  induction es generalizing fs with
  | nil =>
    cases h
    exact ⟨fun e he => absurd he (List.not_mem_nil e), rfl⟩
  | cons e es ih =>
    have h1 : (mm_from_schema_element e).bind (fun f =>
        (mmFieldsFromElements es).map (fun rest => mmSetFieldName f e.get_name :: rest))
        = .ok fs := h
    rcases he : mm_from_schema_element e with err | g
    · rw [he] at h1
      cases (show (Except.error err : Except PyErr (List MMField)) = .ok fs from h1)
    · rw [he] at h1
      have h2 : (mmFieldsFromElements es).map (fun rest => mmSetFieldName g e.get_name :: rest)
          = .ok fs := h1
      rcases hrest : mmFieldsFromElements es with err2 | fs2
      · rw [hrest] at h2
        cases (show (Except.error err2 : Except PyErr (List MMField)) = .ok fs from h2)
      · rw [hrest] at h2
        have h3 : fs = mmSetFieldName g e.get_name :: fs2 := by
          cases (show (Except.ok (mmSetFieldName g e.get_name :: fs2) : Except PyErr (List MMField))
              = .ok fs from h2)
          rfl
        obtain ⟨hall, heq⟩ := ih fs2 hrest
        refine ⟨?_, ?_⟩
        · intro e2 he2
          rcases List.mem_cons.mp he2 with h0 | hs
          · subst h0
            simp [exOk, he]
          · exact hall e2 hs
        · rw [h3, heq]
          simp [he, exGetD]

/-- The unknown-field check passes when every data key is a field name. -/
theorem mmLoadCheckUnknown_ok (fields : List MMField) (data : AList)
    (h : ∀ kv ∈ data, kv.1 ∈ fields.map (fun f => f.data.name)) :
    mmLoadCheckUnknown fields data = .ok () := by
  have hall : data.all (fun kv => (fields.map (fun f => f.data.name)).contains kv.1) = true := by
    rw [List.all_eq_true]
    intro kv hkv
    exact List.elem_eq_true_of_mem (h kv hkv)
  simp [mmLoadCheckUnknown, hall]
  intro x v hx
  simpa [List.mem_map] using h (x, v) hx

/-- Load of the declared fields when every field key is present and
deserializes. -/
theorem mmLoadFields_all_present (fields : List MMField) (data : AList)
    (h : ∀ mf ∈ fields, ∃ v u, alGet data mf.data.name = some v ∧ mmDeserialize mf v = .ok u) :
    mmLoadFields fields data
      = .ok (fields.map fun mf =>
          (mf.data.name, exGetD (mmDeserialize mf ((alGet data mf.data.name).getD .vNone)) .vNone)) := by
  induction fields with
  | nil => rfl
  | cons mf fs ih =>
    obtain ⟨v, u, hv, hu⟩ := h mf (List.mem_cons_self mf fs)
    have hrec := ih (fun g hg => h g (List.mem_cons_of_mem mf hg))
    simp [mmLoadFields, hv, hu, hrec, exGetD, Except.map, Except.bind, bind]

/-- Dump of the declared fields over an object whose dict supplies every field
with a serializable value. -/
theorem mmDumpFields_all_present (fields : List MMField) (cls0 : String) (d0 : AList)
    (h : ∀ mf ∈ fields, ∃ v w, alGet d0 mf.data.name = some v ∧ mmSerialize mf v = .ok w) :
    mmDumpFields fields (.vObj cls0 d0)
      = .ok (fields.map fun mf =>
          (mf.data.name, exGetD (mmSerialize mf ((alGet d0 mf.data.name).getD .vNone)) .vNone)) := by
  induction fields with
  | nil => rfl
  | cons mf fs ih =>
    obtain ⟨v, w, hv, hw⟩ := h mf (List.mem_cons_self mf fs)
    have hrec := ih (fun g hg => h g (List.mem_cons_of_mem mf hg))
    simp [mmDumpFields, mmGetValue, hv, hw, hrec, exGetD, Except.map, Except.bind, bind]

/-- The stable bool-key sort is a permutation of its input. -/
theorem pySortedByKey_perm (key : DCField → Bool) (fs : List DCField) :
    (pySortedByKey key fs).Perm fs := by
  have h := List.filter_append_perm (fun f => !key f) fs
  have h2 : fs.filter (fun f => !(!key f)) = fs.filter key := by
    simp
  rw [h2] at h
  exact h

/-- Per-field facts packed in dcmmFieldRoundOk. -/
theorem dcmmFieldRoundOk_unpack (f : DCField) (d0 : AList)
    (hb : dcmmFieldRoundOk f d0 = true) :
    ∃ v g w u, alGet d0 f.name = some v ∧ v.truthy = true ∧
      mm_from_schema_element (.dcEl f) = .ok g ∧
      pyConstructBase (baseOf f.type) v = .ok w ∧
      mmDeserialize (mmSetFieldName g f.name) w = .ok u := by
  unfold dcmmFieldRoundOk at hb
  rcases hv : alGet d0 f.name with _ | v
  · rw [hv] at hb
    cases hb
  · rw [hv] at hb
    have hb1 : (v.truthy && (match mm_from_schema_element (.dcEl f) with
        | .error _ => false
        | .ok mf =>
          match pyConstructBase (baseOf f.type) v with
          | .error _ => false
          | .ok w => exOk (mmDeserialize (mmSetFieldName mf f.name) w))) = true := hb
    obtain ⟨ht, hb2⟩ := (Bool.and_eq_true _ _).mp hb1
    rcases he : mm_from_schema_element (.dcEl f) with err | g
    · rw [he] at hb2
      cases (show false = true from hb2)
    · rw [he] at hb2
      have hb3 : (match pyConstructBase (baseOf f.type) v with
          | .error _ => false
          | .ok w => exOk (mmDeserialize (mmSetFieldName g f.name) w)) = true := hb2
      rcases hw : pyConstructBase (baseOf f.type) v with err2 | w
      · rw [hw] at hb3
        cases (show false = true from hb3)
      · rw [hw] at hb3
        have hb4 : exOk (mmDeserialize (mmSetFieldName g f.name) w) = true := hb3
        rcases hu : mmDeserialize (mmSetFieldName g f.name) w with err3 | u
        · rw [hu] at hb4
          cases (show false = true from hb4)
        · exact ⟨v, g, w, u, rfl, ht, rfl, hw, hu⟩

/-- The element validation step of a truthy, constructible value succeeds with
the constructed value. -/
theorem dcFieldStep_of_coerce (f : DCField) (d0 : AList) (v w : Value)
    (hv : alGet d0 f.name = some v) (ht : v.truthy = true)
    (hw : pyConstructBase (baseOf f.type) v = .ok w) :
    dcFieldStepOk f d0 = true ∧ dcFieldStepVal f d0 = w := by
  have hval : SchemaTypeAnnot.validate_internal (dcGetAnnot f) f.name f.type
      ((alGet d0 f.name).getD .vMissing) = .ok w := by
    simp [SchemaTypeAnnot.validate_internal, hv, ht, hw]
  constructor
  · simp [dcFieldStepOk, hval, pyConstructBase_not_sentinel (baseOf f.type) v w hw]
  · simp [dcFieldStepVal, hval, exGetD]

/-- Cross-dialect round trip, dataclasses source into marshmallow target: for
a source schema A with name-unique elements, an object oA whose dict has
exactly the element names, a successful translation B, and element values
that are truthy, base-type constructible and deserializable by the synthesized
fields, the pipeline B.from_external(A.to_external(oA, python), python)
succeeds and yields an instance of A whose field values are, name by name, the
marshmallow deserialization of the base-type coercion of the original field
values. -/
theorem dcmm_round_trip (A : DCClass) (B : MMSchemaM) (cls0 : String) (d0 : AList)
    (hnd : (A.fields.map DCField.name).Nodup)
    (hkeys : alKeys d0 = A.fields.map DCField.name)
    (hB : MMSchema_from_schema (.dc A) = .ok B)
    (hvalid : A.fields.all (fun f => dcmmFieldRoundOk f d0) = true) :
    ∃ ext dmut res,
      DCSchema_to_external A (.vObj cls0 d0) .python false = .ok (ext, dmut) ∧
      MMSchema_from_external B ext .python = .ok res ∧
      ∃ resd, res = .vObj A.name resd ∧
        ∀ f ∈ A.fields, ∃ g w u,
          mm_from_schema_element (.dcEl f) = .ok g ∧
          pyConstructBase (baseOf f.type) ((alGet d0 f.name).getD .vMissing) = .ok w ∧
          mmDeserialize (mmSetFieldName g f.name) w = .ok u ∧
          alGet resd f.name = some u := by
  have hval := fun f hf => dcmmFieldRoundOk_unpack f d0 ((List.all_eq_true.mp hvalid) f hf)
  -- the dataclasses-side validation
  have hin : ∀ f ∈ A.fields, f.name ∈ alKeys d0 := by
    intro f hf
    rw [hkeys]
    exact List.mem_map_of_mem DCField.name hf
  have hstep : ∀ f ∈ A.fields, dcFieldStepOk f d0 = true := by
    intro f hf
    obtain ⟨v, g, w, u, hv, ht, _, hw, _⟩ := hval f hf
    exact (dcFieldStep_of_coerce f d0 v w hv ht hw).1
  obtain ⟨d2, hloop, hkeysEq, _, hvals⟩ := dcValidateLoop_spec A.fields d0 hnd hin hstep
  have hsub : ∀ kv ∈ d2, kv.1 ∈ A.fields.map DCField.name := by
    intro kv hkv
    have hmem : kv.1 ∈ alKeys d2 := List.mem_map_of_mem Prod.fst hkv
    rw [hkeysEq, hkeys] at hmem
    exact hmem
  have hpres : ∀ f ∈ A.fields, (alGet d2 f.name).isSome = true := by
    intro f hf
    rw [hvals f hf]
    rfl
  have hctor := dcCtor_spec A d2 hsub hpres
  have hvalint : DCSchema_validate_internal A (.vObj cls0 d0)
      = .ok (.vObj A.name (A.fields.map fun f => (f.name, (alGet d2 f.name).getD .vNone)), d2) := by
    show (dcValidateLoop A.fields d0).bind
      (fun d => (dcCtor A d).bind (fun o => .ok (o, d))) = _
    rw [hloop]
    show (dcCtor A d2).bind (fun o => .ok (o, d2)) = _
    rw [hctor]
    rfl
  have hto : DCSchema_to_external A (.vObj cls0 d0) .python false
      = .ok (.vObj A.name (A.fields.map fun f => (f.name, (alGet d2 f.name).getD .vNone)), d2) :=
    hvalint
  -- the marshmallow target schema
  have hB1 : (mmFieldsFromElements (A.fields.map .dcEl)).bind
      (fun fs => (.ok { fields := fs, objclass := some (.dcCls A), context := [] }
        : Except PyErr MMSchemaM)) = .ok B := hB
  rcases hfe : mmFieldsFromElements (A.fields.map .dcEl) with err | fs
  · rw [hfe] at hB1
    cases (show (Except.error err : Except PyErr MMSchemaM) = .ok B from hB1)
  rw [hfe] at hB1
  have hBval : B = { fields := fs, objclass := some (.dcCls A), context := [] } := by
    cases (show (Except.ok ({ fields := fs, objclass := some (.dcCls A), context := [] }
        : MMSchemaM) : Except PyErr MMSchemaM) = .ok B from hB1)
    rfl
  obtain ⟨_, hfsEq⟩ := mmFieldsFromElements_ok_eq _ fs hfe
  have hfs2 : fs = A.fields.map dcmmSynth := by
    rw [hfsEq, List.map_map]
    exact congrArg (fun fn => List.map fn A.fields) (funext fun f => rfl)
  have hsynthname : ∀ f : DCField, (dcmmSynth f).data.name = f.name :=
    fun f => mmSetFieldName_name _ _
  have hnames : fs.map (fun g => g.data.name) = A.fields.map DCField.name := by
    rw [hfs2, List.map_map]
    exact congrArg (fun fn => List.map fn A.fields) (funext fun f => hsynthname f)
  have hndf : (fs.map (fun g => g.data.name)).Nodup := by
    rw [hnames]
    exact hnd
  -- the load of the externalized object
  have hentryget : ∀ f ∈ A.fields,
      alGet (A.fields.map fun f2 => (f2.name, (alGet d2 f2.name).getD .vNone)) f.name
        = some ((alGet d2 f.name).getD .vNone) := by
    intro f hf
    exact alGet_map_named A.fields DCField.name _ hnd f hf
  have hstepw : ∀ f ∈ A.fields, ∀ v w, alGet d0 f.name = some v → v.truthy = true →
      pyConstructBase (baseOf f.type) v = .ok w → (alGet d2 f.name).getD .vNone = w := by
    intro f hf v w hv ht hw
    rw [hvals f hf]
    show dcFieldStepVal f d0 = w
    exact (dcFieldStep_of_coerce f d0 v w hv ht hw).2
  have hloadpre : ∀ mf ∈ fs, ∃ v u,
      alGet (A.fields.map fun f2 => (f2.name, (alGet d2 f2.name).getD .vNone)) mf.data.name = some v ∧
      mmDeserialize mf v = .ok u := by
    rw [hfs2]
    intro mf hmf
    obtain ⟨f, hf, hfeq⟩ := List.mem_map.mp hmf
    obtain ⟨v, g, w, u, hv, ht, hg, hw, hu⟩ := hval f hf
    have hsynthg : dcmmSynth f = mmSetFieldName g f.name := by
      simp [dcmmSynth, hg, exGetD]
    refine ⟨w, u, ?_, ?_⟩
    · rw [← hfeq, hsynthname f, hentryget f hf, hstepw f hf v w hv ht hw]
    · rw [← hfeq, hsynthg]
      exact hu
  have hload := mmLoadFields_all_present fs _ hloadpre
  have hunknown : mmLoadCheckUnknown fs
      (A.fields.map fun f2 => (f2.name, (alGet d2 f2.name).getD .vNone)) = .ok () := by
    apply mmLoadCheckUnknown_ok
    intro kv hkv
    obtain ⟨f, hf, hfeq⟩ := List.mem_map.mp hkv
    rw [hnames, ← hfeq]
    exact List.mem_map_of_mem DCField.name hf
  have hlv : mmLoadValue fs (.vDict (A.fields.map fun f2 => (f2.name, (alGet d2 f2.name).getD .vNone)))
      = .ok (fs.map fun mf => (mf.data.name,
          exGetD (mmDeserialize mf ((alGet (A.fields.map fun f2 =>
            (f2.name, (alGet d2 f2.name).getD .vNone)) mf.data.name).getD .vNone)) .vNone)) := by
    show (mmLoadCheckUnknown fs _).bind (fun _ => mmLoadFields fs _) = _
    rw [hunknown]
    show mmLoadFields fs _ = _
    exact hload
  -- the object factory over the loaded dict
  have hloadedget : ∀ f ∈ A.fields,
      alGet (fs.map fun mf => (mf.data.name,
          exGetD (mmDeserialize mf ((alGet (A.fields.map fun f2 =>
            (f2.name, (alGet d2 f2.name).getD .vNone)) mf.data.name).getD .vNone)) .vNone)) f.name
        = some (exGetD (mmDeserialize (dcmmSynth f)
            ((alGet (A.fields.map fun f2 => (f2.name, (alGet d2 f2.name).getD .vNone)) f.name).getD .vNone))
            .vNone) := by
    intro f hf
    have hmemf : dcmmSynth f ∈ fs := by
      rw [hfs2]
      exact List.mem_map_of_mem _ hf
    have hgot := alGet_map_named fs (fun mf => mf.data.name)
      (fun mf => exGetD (mmDeserialize mf ((alGet (A.fields.map fun f2 =>
        (f2.name, (alGet d2 f2.name).getD .vNone)) mf.data.name).getD .vNone)) .vNone)
      hndf _ hmemf
    simp only [] at hgot
    rw [hsynthname f] at hgot
    exact hgot
  have hfinalval : ∀ f ∈ A.fields, ∃ g w u,
      mm_from_schema_element (.dcEl f) = .ok g ∧
      pyConstructBase (baseOf f.type) ((alGet d0 f.name).getD .vMissing) = .ok w ∧
      mmDeserialize (mmSetFieldName g f.name) w = .ok u ∧
      alGet (fs.map fun mf => (mf.data.name,
          exGetD (mmDeserialize mf ((alGet (A.fields.map fun f2 =>
            (f2.name, (alGet d2 f2.name).getD .vNone)) mf.data.name).getD .vNone)) .vNone)) f.name
        = some u := by
    intro f hf
    obtain ⟨v, g, w, u, hv, ht, hg, hw, hu⟩ := hval f hf
    have hsynthg : dcmmSynth f = mmSetFieldName g f.name := by
      simp [dcmmSynth, hg, exGetD]
    refine ⟨g, w, u, hg, ?_, hu, ?_⟩
    · rw [hv]
      exact hw
    · rw [hloadedget f hf, hentryget f hf, hstepw f hf v w hv ht hw, hsynthg]
      simp only [Option.getD_some]
      rw [hu]
      rfl
  have hldpres : ∀ f ∈ A.fields, (alGet (fs.map fun mf => (mf.data.name,
      exGetD (mmDeserialize mf ((alGet (A.fields.map fun f2 =>
        (f2.name, (alGet d2 f2.name).getD .vNone)) mf.data.name).getD .vNone)) .vNone)) f.name).isSome
      = true := by
    intro f hf
    obtain ⟨g, w, u, _, _, _, hgot⟩ := hfinalval f hf
    rw [hgot]
    rfl
  have hldsub : ∀ kv ∈ (fs.map fun mf => (mf.data.name,
      exGetD (mmDeserialize mf ((alGet (A.fields.map fun f2 =>
        (f2.name, (alGet d2 f2.name).getD .vNone)) mf.data.name).getD .vNone)) .vNone)),
      kv.1 ∈ A.fields.map DCField.name := by
    intro kv hkv
    obtain ⟨mf, hmf, hmfeq⟩ := List.mem_map.mp hkv
    rw [← hmfeq]
    show mf.data.name ∈ A.fields.map DCField.name
    rw [← hnames]
    exact List.mem_map_of_mem _ hmf
  have hctor2 := dcCtor_spec A _ hldsub hldpres
  -- assemble from_external
  have hfrom : MMSchema_from_external B
      (.vObj A.name (A.fields.map fun f => (f.name, (alGet d2 f.name).getD .vNone))) .python
      = .ok (.vObj A.name (A.fields.map fun f => (f.name,
          (alGet (fs.map fun mf => (mf.data.name,
            exGetD (mmDeserialize mf ((alGet (A.fields.map fun f2 =>
              (f2.name, (alGet d2 f2.name).getD .vNone)) mf.data.name).getD .vNone)) .vNone))
            f.name).getD .vNone))) := by
    rw [hBval]
    show (exceptMM (mmLoadValue fs (.vDict (A.fields.map fun f2 =>
        (f2.name, (alGet d2 f2.name).getD .vNone))))).bind
      (fun d => object_factory (some (.dcCls A)) d) = _
    rw [hlv]
    show object_factory (some (.dcCls A)) _ = _
    show dcCtor A _ = _
    exact hctor2
  refine ⟨_, d2, _, hto, hfrom, _, rfl, ?_⟩
  intro f hf
  obtain ⟨g, w, u, hg, hw, hu, hgot⟩ := hfinalval f hf
  refine ⟨g, w, u, hg, hw, hu, ?_⟩
  rw [alGet_map_named A.fields DCField.name _ hnd f hf, hgot]
  rfl

/-- Per-field facts packed in mmdcFieldRoundOk. -/
theorem mmdcFieldRoundOk_unpack (mf : MMField) (d0 : AList)
    (hb : mmdcFieldRoundOk mf d0 = true) :
    ∃ v w u, alGet d0 mf.data.name = some v ∧
      mmSerialize mf v = .ok w ∧ w.truthy = true ∧
      pyConstructBase (baseOf (mmGetPythonType mf)) w = .ok u := by
  unfold mmdcFieldRoundOk at hb
  rcases hv : alGet d0 mf.data.name with _ | v
  · rw [hv] at hb
    cases hb
  · rw [hv] at hb
    have hb1 : (match mmSerialize mf v with
        | .error _ => false
        | .ok w => w.truthy && exOk (pyConstructBase (baseOf (mmGetPythonType mf)) w)) = true := hb
    rcases hw : mmSerialize mf v with err | w
    · rw [hw] at hb1
      cases (show false = true from hb1)
    · rw [hw] at hb1
      have hb2 : (w.truthy && exOk (pyConstructBase (baseOf (mmGetPythonType mf)) w)) = true := hb1
      obtain ⟨ht, hb3⟩ := (Bool.and_eq_true _ _).mp hb2
      rcases hu : pyConstructBase (baseOf (mmGetPythonType mf)) w with err2 | u
      · rw [hu] at hb3
        cases (show false = true from hb3)
      · exact ⟨v, w, u, rfl, hw, ht, hu⟩

/-- A successful make_dataclass returns a class holding exactly the given
fields. -/
theorem make_dataclass_ok_fields (n : String) (fs : List DCField) (B : DCClass)
    (h : make_dataclass n fs = .ok B) : B.fields = fs := by
  unfold make_dataclass at h
  split at h
  · cases (show (Except.ok ({ name := n, fields := fs } : DCClass) : Except PyErr DCClass)
        = .ok B from h)
    rfl
  · cases h

/-- Cross-dialect round trip, marshmallow source into dataclasses target: for
a source schema S with name-unique fields, an object oS whose dict supplies
every field with a value that serializes to a truthy, base-type-constructible
payload, and a successful translation C, the pipeline
C.from_external(S.to_external(oS, python), python) succeeds and yields an
instance of C whose field values are, name by name, the base-type coercion of
the marshmallow serialization of the original field values. -/
theorem mmdc_round_trip (S : MMSchemaM) (C : DCClass) (cls0 : String) (d0 : AList)
    (hnd : (S.fields.map fun mf => mf.data.name).Nodup)
    (hC : DCSchema_from_schema (.mm S) = .ok C)
    (hvalid : S.fields.all (fun mf => mmdcFieldRoundOk mf d0) = true) :
    ∃ ext res resd,
      MMSchema_to_external S (.vObj cls0 d0) .python none = .ok ext ∧
      DCSchema_from_external C ext .python = .ok (res, resd) ∧
      ∃ entries, res = .vObj C.name entries ∧
        ∀ mf ∈ S.fields, ∃ w u,
          mmSerialize mf ((alGet d0 mf.data.name).getD .vNone) = .ok w ∧
          pyConstructBase (baseOf (mmGetPythonType mf)) w = .ok u ∧
          alGet entries mf.data.name = some u := by
  have hval := fun mf hmf => mmdcFieldRoundOk_unpack mf d0 ((List.all_eq_true.mp hvalid) mf hmf)
  -- the marshmallow-side dump
  have hdumppre : ∀ mf ∈ S.fields, ∃ v w,
      alGet d0 mf.data.name = some v ∧ mmSerialize mf v = .ok w := by
    intro mf hmf
    obtain ⟨v, w, u, hv, hw, ht, hu⟩ := hval mf hmf
    exact ⟨v, w, hv, hw⟩
  have hdump := mmDumpFields_all_present S.fields cls0 d0 hdumppre
  have hwval : ∀ mf : MMField, ∀ v w : Value, alGet d0 mf.data.name = some v →
      mmSerialize mf v = .ok w →
      exGetD (mmSerialize mf ((alGet d0 mf.data.name).getD .vNone)) .vNone = w := by
    intro mf v w hv hw
    rw [hv]
    show exGetD (mmSerialize mf v) .vNone = w
    rw [hw]
    rfl
  have hto : MMSchema_to_external S (.vObj cls0 d0) .python none
      = .ok (.vDict (S.fields.map fun mf2 => (mf2.data.name,
          exGetD (mmSerialize mf2 ((alGet d0 mf2.data.name).getD .vNone)) .vNone))) := by
    show (exceptMM ((mmDumpFields S.fields (.vObj cls0 d0)).map Value.vDict)).bind
      (fun e => .ok e) = _
    rw [hdump]
    rfl
  -- the dataclasses target class
  have hmk : C.fields
      = pySortedByKey dcHasLiteralDefault ((SchemaM.mm S).elements.map dc_from_schema_element) :=
    make_dataclass_ok_fields _ _ C hC
  have hfs : C.fields = pySortedByKey dcHasLiteralDefault (S.fields.map mmdcSynth) := by
    rw [hmk]
    apply congrArg
    show (S.fields.map ElementM.mmEl).map dc_from_schema_element = _
    rw [List.map_map]
    exact congrArg (fun fn => List.map fn S.fields) (funext fun mf => rfl)
  have hpermC : C.fields.Perm (S.fields.map mmdcSynth) := by
    rw [hfs]
    exact pySortedByKey_perm _ _
  have hnames0 : (S.fields.map mmdcSynth).map DCField.name
      = S.fields.map fun mf2 => mf2.data.name := by
    rw [List.map_map]
    exact congrArg (fun fn => List.map fn S.fields) (funext fun mf => rfl)
  have hndC : (C.fields.map DCField.name).Nodup := by
    refine ((hpermC.map DCField.name).symm).nodup ?_
    rw [hnames0]
    exact hnd
  have hCmem : ∀ g ∈ C.fields, ∃ mf, mf ∈ S.fields ∧ g = mmdcSynth mf := by
    intro g hg
    obtain ⟨mf, hmf, heq⟩ := List.mem_map.mp (hpermC.subset hg)
    exact ⟨mf, hmf, heq.symm⟩
  -- the dumped payload
  have hdkeys : alKeys (S.fields.map fun mf2 => (mf2.data.name,
      exGetD (mmSerialize mf2 ((alGet d0 mf2.data.name).getD .vNone)) .vNone))
      = S.fields.map fun mf2 => mf2.data.name := by
    show (S.fields.map fun mf2 => (mf2.data.name,
      exGetD (mmSerialize mf2 ((alGet d0 mf2.data.name).getD .vNone)) .vNone)).map Prod.fst = _
    rw [List.map_map]
    exact congrArg (fun fn => List.map fn S.fields) (funext fun mf => rfl)
  have hdget : ∀ mf ∈ S.fields,
      alGet (S.fields.map fun mf2 => (mf2.data.name,
        exGetD (mmSerialize mf2 ((alGet d0 mf2.data.name).getD .vNone)) .vNone)) mf.data.name
      = some (exGetD (mmSerialize mf ((alGet d0 mf.data.name).getD .vNone)) .vNone) := by
    intro mf hmf
    exact alGet_map_named S.fields (fun mf2 => mf2.data.name) _ hnd mf hmf
  -- the dataclasses-side validation of the payload
  have hin : ∀ g ∈ C.fields, g.name ∈ alKeys (S.fields.map fun mf2 => (mf2.data.name,
      exGetD (mmSerialize mf2 ((alGet d0 mf2.data.name).getD .vNone)) .vNone)) := by
    intro g hg
    obtain ⟨mf, hmf, hgeq⟩ := hCmem g hg
    subst hgeq
    rw [hdkeys]
    show mf.data.name ∈ S.fields.map fun mf2 => mf2.data.name
    exact List.mem_map_of_mem _ hmf
  have hstep : ∀ g ∈ C.fields, dcFieldStepOk g (S.fields.map fun mf2 => (mf2.data.name,
      exGetD (mmSerialize mf2 ((alGet d0 mf2.data.name).getD .vNone)) .vNone)) = true := by
    intro g hg
    obtain ⟨mf, hmf, hgeq⟩ := hCmem g hg
    subst hgeq
    obtain ⟨v, w, u, hv, hw, ht, hu⟩ := hval mf hmf
    have hv2 : alGet (S.fields.map fun mf2 => (mf2.data.name,
        exGetD (mmSerialize mf2 ((alGet d0 mf2.data.name).getD .vNone)) .vNone)) mf.data.name
        = some w := by
      rw [hdget mf hmf, hwval mf v w hv hw]
    exact (dcFieldStep_of_coerce (mmdcSynth mf) _ w u hv2 ht hu).1
  obtain ⟨d2, hloop, hkeysEq, _, hvals⟩ := dcValidateLoop_spec C.fields
    (S.fields.map fun mf2 => (mf2.data.name,
      exGetD (mmSerialize mf2 ((alGet d0 mf2.data.name).getD .vNone)) .vNone)) hndC hin hstep
  -- reconstruction through the dataclass constructor
  have hsub : ∀ kv ∈ d2, kv.1 ∈ C.fields.map DCField.name := by
    intro kv hkv
    have hmem : kv.1 ∈ alKeys d2 := List.mem_map_of_mem Prod.fst hkv
    rw [hkeysEq, hdkeys] at hmem
    have hp : (C.fields.map DCField.name).Perm (S.fields.map fun mf2 => mf2.data.name) := by
      have h1 := hpermC.map DCField.name
      rw [hnames0] at h1
      exact h1
    exact hp.symm.subset hmem
  have hpres : ∀ g ∈ C.fields, (alGet d2 g.name).isSome = true := by
    intro g hg
    rw [hvals g hg]
    rfl
  have hctor := dcCtor_spec C d2 hsub hpres
  have hfrom : DCSchema_from_external C (.vDict (S.fields.map fun mf2 => (mf2.data.name,
      exGetD (mmSerialize mf2 ((alGet d0 mf2.data.name).getD .vNone)) .vNone))) .python
      = .ok (.vObj C.name (C.fields.map fun g => (g.name, (alGet d2 g.name).getD .vNone)), d2) := by
    show (dcValidateLoop C.fields (S.fields.map fun mf2 => (mf2.data.name,
        exGetD (mmSerialize mf2 ((alGet d0 mf2.data.name).getD .vNone)) .vNone))).bind
      (fun d => (dcCtor C d).bind (fun o => .ok (o, d))) = _
    rw [hloop]
    show (dcCtor C d2).bind (fun o => .ok (o, d2)) = _
    rw [hctor]
    rfl
  refine ⟨_, _, d2, hto, hfrom, _, rfl, ?_⟩
  intro mf hmf
  obtain ⟨v, w, u, hv, hw, ht, hu⟩ := hval mf hmf
  have hgC : mmdcSynth mf ∈ C.fields := hpermC.mem_iff.mpr (List.mem_map_of_mem mmdcSynth hmf)
  have hv2 : alGet (S.fields.map fun mf2 => (mf2.data.name,
      exGetD (mmSerialize mf2 ((alGet d0 mf2.data.name).getD .vNone)) .vNone)) mf.data.name
      = some w := by
    rw [hdget mf hmf, hwval mf v w hv hw]
  have hsv : dcFieldStepVal (mmdcSynth mf) (S.fields.map fun mf2 => (mf2.data.name,
      exGetD (mmSerialize mf2 ((alGet d0 mf2.data.name).getD .vNone)) .vNone)) = u :=
    (dcFieldStep_of_coerce (mmdcSynth mf) _ w u hv2 ht hu).2
  have hd2 : alGet d2 mf.data.name = some u := by
    have h1 : alGet d2 mf.data.name = some (dcFieldStepVal (mmdcSynth mf)
        (S.fields.map fun mf2 => (mf2.data.name,
          exGetD (mmSerialize mf2 ((alGet d0 mf2.data.name).getD .vNone)) .vNone))) :=
      hvals (mmdcSynth mf) hgC
    rw [h1, hsv]
  refine ⟨w, u, ?_, hu, ?_⟩
  · rw [hv]
    exact hw
  · have hgot : alGet (C.fields.map fun g => (g.name, (alGet d2 g.name).getD .vNone)) mf.data.name
        = some ((alGet d2 mf.data.name).getD .vNone) :=
      alGet_map_named C.fields DCField.name (fun g => (alGet d2 g.name).getD .vNone)
        hndC (mmdcSynth mf) hgC
    rw [hgot, hd2]
    rfl

/-- C1 counterexample: the schemaDob marshmallow schema holds one required
Date field, oDob is valid under it (validate_internal succeeds), and its
translation to the dataclasses dialect succeeds; but the round trip
C.from_external(S.to_external(oDob, python), python) raises a ValidationError
instead of producing a matching object, because to_external serializes the
date to its ISO string while the dataclasses-side validation passes that
string to the bare date constructor, which accepts no string. -/
theorem C1_counterexample_date_round_trip :
    MMSchema_validate_internal schemaDob oDob = .ok (.vObj "P" [("dob", .vDate "1999-01-01")]) ∧
    DCSchema_from_schema (.mm schemaDob) = .ok dcDobClass ∧
    MMSchema_to_external schemaDob oDob .python none
      = .ok (.vDict [("dob", .vStr "1999-01-01")]) ∧
    DCSchema_from_external dcDobClass (.vDict [("dob", .vStr "1999-01-01")]) .python
      = .error (.validationError "date constructor needs year, month and day, got str"
          (some (.typeError "date constructor needs year, month and day, got str"))) :=
  ⟨rfl, rfl, rfl, rfl⟩

/-- C1 (amended): the cross-dialect round trip holds in both directions under
per-element success conditions.  Dataclasses source A into marshmallow target
B: for an object dict dA with exactly the element names, holding truthy values
the base native types coerce and the synthesized fields deserialize,
B.from_external(A.to_external(oA, python), python) yields an instance of A
whose fields are, name by name, the deserialized coercion of oA's values
(value preservation modulo type coercion).  Marshmallow source S into
dataclasses target C: for an object dict dS whose field values serialize to
truthy payloads accepted by the bare base native types,
C.from_external(S.to_external(oS, python), python) yields an instance of C
whose fields are, name by name, the base-type coercion of the serialized
values.  Without such conditions the round trip can raise instead (see the
date counterexample), so the spec sentence holds only conditionally. -/
theorem C1_round_trip_amended
    (A : DCClass) (B : MMSchemaM) (S : MMSchemaM) (C : DCClass)
    (clsA clsS : String) (dA dS : AList)
    (hndA : (A.fields.map DCField.name).Nodup)
    (hkA : alKeys dA = A.fields.map DCField.name)
    (hAB : MMSchema_from_schema (.dc A) = .ok B)
    (hvA : A.fields.all (fun f => dcmmFieldRoundOk f dA) = true)
    (hndS : (S.fields.map fun mf => mf.data.name).Nodup)
    (hSC : DCSchema_from_schema (.mm S) = .ok C)
    (hvS : S.fields.all (fun mf => mmdcFieldRoundOk mf dS) = true) :
    (∃ ext dmut res,
      DCSchema_to_external A (.vObj clsA dA) .python false = .ok (ext, dmut) ∧
      MMSchema_from_external B ext .python = .ok res ∧
      ∃ resd, res = .vObj A.name resd ∧
        ∀ f ∈ A.fields, ∃ g w u,
          mm_from_schema_element (.dcEl f) = .ok g ∧
          pyConstructBase (baseOf f.type) ((alGet dA f.name).getD .vMissing) = .ok w ∧
          mmDeserialize (mmSetFieldName g f.name) w = .ok u ∧
          alGet resd f.name = some u) ∧
    (∃ ext2 res2 resd2,
      MMSchema_to_external S (.vObj clsS dS) .python none = .ok ext2 ∧
      DCSchema_from_external C ext2 .python = .ok (res2, resd2) ∧
      ∃ entries, res2 = .vObj C.name entries ∧
        ∀ mf ∈ S.fields, ∃ w u,
          mmSerialize mf ((alGet dS mf.data.name).getD .vNone) = .ok w ∧
          pyConstructBase (baseOf (mmGetPythonType mf)) w = .ok u ∧
          alGet entries mf.data.name = some u) :=
  ⟨dcmm_round_trip A B clsA dA hndA hkA hAB hvA,
   mmdc_round_trip S C clsS dS hndS hSC hvS⟩

/-- C1 witness: both directions instantiated — the InventoryItem dataclass
round-trips through its synthesized marshmallow schema, and the schemaQ
marshmallow schema round-trips through its synthesized dataclass. -/
theorem C1_round_trip_amended_witness :
    ((invItem.fields.map DCField.name).Nodup ∧
     alKeys inv1dict = invItem.fields.map DCField.name ∧
     MMSchema_from_schema (.dc invItem) = .ok mmInvSchema ∧
     invItem.fields.all (fun f => dcmmFieldRoundOk f inv1dict) = true ∧
     (schemaQ.fields.map fun mf => mf.data.name).Nodup ∧
     DCSchema_from_schema (.mm schemaQ) = .ok dcQClass ∧
     schemaQ.fields.all (fun mf => mmdcFieldRoundOk mf oQdict) = true) ∧
    ((∃ ext dmut res,
      DCSchema_to_external invItem (.vObj "InventoryItem" inv1dict) .python false
        = .ok (ext, dmut) ∧
      MMSchema_from_external mmInvSchema ext .python = .ok res ∧
      ∃ resd, res = .vObj invItem.name resd ∧
        ∀ f ∈ invItem.fields, ∃ g w u,
          mm_from_schema_element (.dcEl f) = .ok g ∧
          pyConstructBase (baseOf f.type) ((alGet inv1dict f.name).getD .vMissing) = .ok w ∧
          mmDeserialize (mmSetFieldName g f.name) w = .ok u ∧
          alGet resd f.name = some u) ∧
     (∃ ext2 res2 resd2,
      MMSchema_to_external schemaQ (.vObj "Q" oQdict) .python none = .ok ext2 ∧
      DCSchema_from_external dcQClass ext2 .python = .ok (res2, resd2) ∧
      ∃ entries, res2 = .vObj dcQClass.name entries ∧
        ∀ mf ∈ schemaQ.fields, ∃ w u,
          mmSerialize mf ((alGet oQdict mf.data.name).getD .vNone) = .ok w ∧
          pyConstructBase (baseOf (mmGetPythonType mf)) w = .ok u ∧
          alGet entries mf.data.name = some u)) :=
  ⟨⟨by decide, rfl, rfl, rfl, by decide, rfl, rfl⟩,
   C1_round_trip_amended invItem mmInvSchema schemaQ dcQClass "InventoryItem" "Q" inv1dict oQdict
     (by decide) rfl rfl rfl (by decide) rfl rfl⟩

end PyS
